import Mathlib

/-!
# Verification of the s-nav exam-transfer protocol engine

Shallow embedding of the FTP-like control/data-channel protocol of the
s-nav repository, and proofs about it.  The embedding follows the Python
source:

* `network_utils.py` — transfer engine (`receive_file_data`), data-channel
  negotiation (`wait_for_data_connection`);
* `server/protocol_handlers.py` — the modular command handlers
  (`handle_user`, `handle_pass`, `handle_stor`);
* `server.py` — the monolithic server (`handle_client` command loop and
  its `finally` cleanup, `update_server_timer`).

Machine bytes are modelled as `Nat`, socket handles as `Nat` identifiers,
and a data connection as the list of bytes the peer delivers before it
closes.  Socket timeouts are not modelled (no claim below depends on the
timeout paths); a `recv` on a closed/exhausted connection returns the
empty chunk, exactly as a Python `recv` returns `b""` at end of stream.
GUI callbacks (`update_ui_list`, logging) are external fire-and-forget
observers per spec §6 and are not part of the embedded state.
-/

namespace SNav

/-- A byte, as received from a socket (`0 ≤ b < 256` is irrelevant to every
claim, so bytes are plain naturals). -/
abbrev Byte := Nat

/-- A connection handle.  Python compares handles with `is`; distinct
sessions hold distinct handles, modelled as distinct naturals. -/
abbrev Conn := Nat

/-! ## Transfer engine: `network_utils.receive_file_data`
The data connection is modelled as the list of bytes the peer sends
before closing.  `recv n` returns at most `n` bytes from the front and
returns the empty chunk once the stream is exhausted (peer closed). -/
/-- The `while received < expected_size` loop of `receive_file_data`
(`network_utils.py` lines 198–214).  `opt` is the `optimal_buffer`
(`max(buffer_size, 65536)`), `s` the unread bytes of the data connection.
Each iteration requests `min(optimal_buffer, remaining)` bytes; an empty
chunk (peer closed early) breaks the loop. -/
def receiveLoop (opt expected received : Nat) (acc : List Byte) (s : List Byte) :
    List Byte × Nat :=
  if _h : received < expected then
    if hc : s.take (min opt (expected - received)) = [] then (acc, received)
    else
      receiveLoop opt expected
        (received + (s.take (min opt (expected - received))).length)
        (acc ++ s.take (min opt (expected - received)))
        (s.drop (min opt (expected - received)))
  else (acc, received)
  termination_by s.length
  decreasing_by
    have h2 : 0 < (s.take (min opt (expected - received))).length :=
      List.length_pos.mpr hc
    rw [List.length_take] at h2
    rw [List.length_drop]
    omega

/-- `network_utils.receive_file_data(data_conn, expected_size, buffer_size)`
(lines 180–216).  The source takes `expected_size: int`; a non-positive
expected size makes the `while` guard immediately false, hence `.toNat`.
Returns `(file_data, bytes_received)`; an early peer close returns the
partial data rather than raising. -/
def receive_file_data (s : List Byte) (expectedSize : Int) (bufferSize : Nat) :
    List Byte × Nat :=
  receiveLoop (max bufferSize 65536) expectedSize.toNat 0 [] s

/-- The behaviour §4.3 of the spec ascribes to `Receive` when
`expectedSize` is zero/absent: "reads until the peer closes and returns
whatever was collected".  Stated from the spec's words, for comparison
with the source's `receive_file_data`. -/
def receiveSpecZeroUntilClose (s : List Byte) : List Byte × Nat :=
  (s, s.length)

/-! ## Data-channel negotiator: `network_utils.wait_for_data_connection`
A listening data-channel socket is modelled by whether it has been
closed and by the queue of inbound connection attempts. -/
/-- A listening data-channel socket (`bind_random_port` creates it with
`listen(1)` and a 30 s accept timeout, `network_utils.py` lines 57–69). -/
structure Listener where
  closed : Bool
  inbound : List Conn
  deriving DecidableEq, Repr

/-- `network_utils.wait_for_data_connection(data_server_socket, timeout)`
(lines 126–152): one `accept()`.  `none` models the timeout path
(`NetworkConnectionError` raised).  On success the accepted peer is
returned together with the listener, whose `closed` flag the source does
not touch — the caller closes the listening socket later. -/
def wait_for_data_connection (l : Listener) : Option (Conn × Listener) :=
  match l.inbound with
  | [] => none
  | c :: rest => some (c, { l with inbound := rest })

/-- Digit accumulation for `pyInt` (`acc` is the value parsed so far). -/
def digitsToNat : List Char → Nat → Option Nat
  | [], acc => some acc
  | c :: rest, acc =>
      if 48 ≤ c.toNat ∧ c.toNat ≤ 57 then digitsToNat rest (acc * 10 + (c.toNat - 48))
      else none

/-- Python `int(s)` on a command argument: an optional sign followed by
one or more decimal digits; anything else raises `ValueError`, modelled
as `none`.  (Python `int` also strips surrounding whitespace, but the
command parsers split on spaces first, so the argument carries none.) -/
def pyIntOfChars : List Char → Option Int
  | [] => none
  | '-' :: rest => if rest = [] then none else (digitsToNat rest 0).map (fun n => -(n : Int))
  | '+' :: rest => if rest = [] then none else (digitsToNat rest 0).map (fun n => (n : Int))
  | cs => (digitsToNat cs 0).map (fun n => (n : Int))

/-- Python `int(s)` (see `pyIntOfChars`). -/
def pyInt (s : String) : Option Int := pyIntOfChars s.data

/-- `network_utils.format_passive_response(ip, port)` (lines 106–109). -/
def format_passive_response (ip : String) (port : Nat) : String :=
  "227 Entering Passive Mode (" ++ ip.replace "." "," ++ "," ++
    toString (port / 256) ++ "," ++ toString (port % 256) ++ ")\n"

/-! ## `server/protocol_handlers.ProtocolHandler.handle_stor`
The STOR handler (lines 509–725) is embedded as a function producing the
trace of its externally visible actions.  Control-channel writes are
`Ev.reply`; sends on the control channel are assumed deliverable (the
claims below are about sessions whose control channel is up).  The
external collaborators of spec §6 (secure storage, config, clock) enter
through `StorEnv`.  GUI/logging callbacks are omitted (spec §6: the
observer sink is fire-and-forget and never blocks protocol progress). -/
/-- Externally visible actions of a STOR execution. -/
inductive Ev where
  /-- A line written to the control channel. -/
  | reply (msg : String)
  /-- `bind_random_port` allocated a fresh data-channel listening port. -/
  | allocPort (port : Nat)
  /-- The client's data connection was accepted. -/
  | acceptData (peer : Conn)
  /-- The accepted data connection was closed. -/
  | closeData
  /-- The data-channel listening socket was closed. -/
  | closeListener
  /-- `secure_handler.save_file_securely(file_data, student_no, filename)`. -/
  | save (data : List Byte) (studentNo filename : String)
  /-- The session's `delivery_file` / `delivery_time` were recorded. -/
  | record (filename time : String)
  deriving DecidableEq, Repr

/-- Whether the handler returned normally or raised one of the repo's
exception types (`NetworkConnectionError`, `FileTransferError`, ...). -/
inductive StorOutcome where
  | ok
  | err
  deriving DecidableEq, Repr

/-- Result of one STOR execution: action trace, outcome, and the new
passive-socket state returned to the command loop. -/
structure StorRes where
  events : List Ev
  outcome : StorOutcome
  pasv : Option Nat
  deriving DecidableEq, Repr

/-- Environment of a STOR execution: exam/config state and the external
collaborators' responses. -/
structure StorEnv where
  /-- `self.exam_started()`. -/
  examStarted : Bool
  /-- `config "server.max_file_size_mb"`, default 50. -/
  maxFileSizeMB : Nat
  /-- `config "server.buffer_size"`, default 4096. -/
  bufferSize : Nat
  /-- Result of `bind_random_port` (`none` = bind exhaustion raised). -/
  bindResult : Option Nat
  /-- `get_server_ip_for_client(...)`. -/
  serverIP : String
  /-- The data-channel listening socket used for `wait_for_data_connection`
  (the session's PASV socket when one exists, the fresh one otherwise). -/
  dataListener : Listener
  /-- The bytes the client delivers on the data channel before closing. -/
  dataBytes : List Byte
  /-- `save_file_securely` success flag. -/
  saveOk : Bool
  /-- `datetime.now().strftime("%H:%M:%S")` at recording time. -/
  nowTime : String
  /-- Whether `student_no in self.connected_students` at recording time. -/
  inRegistry : Bool
  deriving Repr

/-- `MAX_FILE_SIZE = config "server.max_file_size_mb" * 1024 * 1024`. -/
def StorEnv.maxFileSize (env : StorEnv) : Int :=
  (env.maxFileSizeMB : Int) * 1024 * 1024

/-- The tail of `handle_stor` once a data port is at hand (source lines
559–698): optional 227, the 150 line, `wait_for_data_connection`,
`send_ready_message`, `receive_file_data`, close, size check,
`save_file_securely`, 226, delivery recording. -/
def storTransfer (env : StorEnv) (studentNo filename : String) (filesize : Int)
    (pasv : Option Nat) (pasvUsed : Bool) (port : Nat) (pre : List Ev) : StorRes :=
  let pre227 :=
    pre ++ (if pasvUsed then [] else [Ev.reply (format_passive_response env.serverIP port)])
  let pre150 :=
    pre227 ++ [Ev.reply ("150 Opening binary mode data connection for " ++ filename ++ ".\n")]
  match wait_for_data_connection env.dataListener with
  | none =>
      -- accept timeout: 550 on control channel, close listener, re-raise
      ⟨pre150 ++ [Ev.reply "550 Data baglantisi zaman asimina ugradi\n", Ev.closeListener],
        .err, pasv⟩
  | some (peer, _) =>
      let preReady := pre150 ++ [Ev.acceptData peer, Ev.reply "READY\n"]
      let rcv := receive_file_data env.dataBytes filesize env.bufferSize
      let preClosed := preReady ++ [Ev.closeData, Ev.closeListener]
      if (rcv.2 : Int) ≠ filesize then
        ⟨preClosed ++ [Ev.reply "550 Transfer yarim kaldi\n"], .err, pasv⟩
      else
        let preSave := preClosed ++ [Ev.save rcv.1 studentNo filename]
        if ¬ env.saveOk then
          ⟨preSave ++ [Ev.reply "550 Dosya kaydetme hatasi\n"], .err, pasv⟩
        else
          ⟨preSave ++ [Ev.reply "226 Transfer complete.\n"] ++
              (if env.inRegistry then [Ev.record filename env.nowTime] else []),
            .ok, none⟩

/-- `ProtocolHandler.handle_stor(parts, conn, addr, student_no, ...)`
(`server/protocol_handlers.py` lines 509–725; the legacy variant
`protocol_handlers.py` lines 269–394 has the same control flow on every
branch below).  `parts` is the space-split command line. -/
def handle_stor (env : StorEnv) (studentNo : String) (pasv : Option Nat)
    (parts : List String) : StorRes :=
  if studentNo = "Bilinmiyor" then
    ⟨[Ev.reply "530 Please login with USER and PASS.\n"], .ok, pasv⟩
  else if env.examStarted = false then
    ⟨[Ev.reply "550 SINAV_BASLAMADI_YUKLEME_YASAK\n"], .ok, pasv⟩
  else if parts.length < 2 then
    ⟨[Ev.reply "501 Syntax error in parameters or arguments.\n"], .ok, pasv⟩
  else
    let filename := parts.getD 1 ""
    -- `filesize = int(parts[2]) if len(parts) >= 3 else 0`
    match (if parts.length ≥ 3 then pyInt (parts.getD 2 "") else some 0) with
    | none =>
        -- ValueError: `550 Gecersiz dosya boyutu`, then ProtocolViolationError
        ⟨[Ev.reply "550 Gecersiz dosya boyutu\n"], .err, pasv⟩
    | some filesize =>
        if filesize > 0 ∧ filesize > env.maxFileSize then
          ⟨[Ev.reply ("550 File too large (max " ++ toString env.maxFileSizeMB ++ "MB).\n")],
            .ok, pasv⟩
        else
          -- `_get_data_port`: reuse the PASV socket if present, else bind fresh
          match pasv with
          | some p => storTransfer env studentNo filename filesize pasv true p []
          | none =>
              match env.bindResult with
              | none => ⟨[Ev.reply "550 Can't open data connection.\n"], .err, pasv⟩
              | some p =>
                  storTransfer env studentNo filename filesize pasv false p [Ev.allocPort p]

/-- Is this event a `save` (an invocation of the secure-storage
collaborator)? -/
def Ev.isSave : Ev → Bool
  | .save _ _ _ => true
  | _ => false

/-- Is this event the `226 Transfer complete.` control reply? -/
def Ev.isReply226 : Ev → Bool
  | .reply m => m = "226 Transfer complete.\n"
  | _ => false

/-- Is this event the recording of the session's delivery marker? -/
def Ev.isRecord : Ev → Bool
  | .record _ _ => true
  | _ => false

/-- `beforeIn tr p q` holds when some `p`-event occurs strictly before
some `q`-event in the trace `tr`. -/
def beforeIn (tr : List Ev) (p q : Ev → Bool) : Bool :=
  match tr with
  | [] => false
  | e :: rest => (p e && rest.any q) || beforeIn rest p q

/-! ## String-keyed association maps
Python `dict`s keyed by student number (`connected_students`,
`_pending_logins`) are modelled as association lists with the usual
lookup / delete / assign operations. -/
/-- Dictionary lookup (`d[k]` / `k in d`). -/
def getK {β : Type} : List (String × β) → String → Option β
  | [], _ => none
  | (k, v) :: rest, i => if k = i then some v else getK rest i

/-- Dictionary deletion (`del d[k]` / `d.pop(k, None)`). -/
def eraseK {β : Type} : List (String × β) → String → List (String × β)
  | [], _ => []
  | (k, v) :: rest, i => if k = i then eraseK rest i else (k, v) :: eraseK rest i

/-- Dictionary assignment (`d[k] = v`). -/
def setK {β : Type} (l : List (String × β)) (i : String) (v : β) : List (String × β) :=
  (i, v) :: eraseK l i

/-! ## The monolithic server `server.py`
`TeacherServerGUI.handle_client` (lines 318–513), its `finally` cleanup,
`update_server_timer` (531–550) and `unlock_entries` (552–557). -/
/-- State touched by the monolithic server's per-connection loop and
timer.  `savedFiles` records the answer files written under `Cevaplar/`
(keyed by the `safe_filename` the server builds). -/
structure SrvState where
  /-- The session's `student_no` local ("Bilinmiyor" before login). -/
  studentNo : String
  /-- The global `connected_students` dict, entry = stored `conn` handle. -/
  connected : List (String × Conn)
  /-- `self.exam_started`. -/
  examStarted : Bool
  /-- `self.timer_running`. -/
  timerRunning : Bool
  /-- `self.exam_time_remaining`. -/
  remaining : Int
  /-- This session's own control-connection handle. -/
  selfConn : Conn
  /-- Files written under `Cevaplar/` (name, content). -/
  savedFiles : List (String × List Byte)
  deriving DecidableEq, Repr

/-- External collaborators of the monolithic server loop. -/
structure SrvEnv where
  /-- `verify_student(no, password) -> (bool, name|None)`. -/
  verify : String → String → Bool × Option String
  /-- `os.listdir("Sorular")` file names. -/
  questionFiles : List String
  /-- Bytes that follow on the control connection (the inline STOR loop
  reads the upload from the same socket). -/
  ctrlBytes : List Byte
  /-- `config "server.max_file_size_mb"`, default 50. -/
  maxFileSizeMB : Nat
  /-- `BUFFER_SIZE`, default 4096. -/
  bufferSize : Nat
  /-- `datetime.now().strftime("%Y%m%d_%H%M%S")` for the safe filename. -/
  timestamp : String

/-- `TeacherServerGUI.update_server_timer` (lines 531–550), one tick:
while running with time left it broadcasts a `CMD:SYNC` every 30 s and
decrements; at zero it stops the timer and broadcasts `CMD:TIME_UP` to
every connected session.  Returns the new state and the list of
(connection, message) pushes. -/
def update_server_timer (st : SrvState) (conns : List Conn) :
    SrvState × List (Conn × String) :=
  if st.timerRunning = true ∧ st.remaining > 0 then
    let msgs :=
      if st.remaining % 30 = 0 then
        conns.map (fun c => (c, "CMD:SYNC:" ++ toString st.remaining ++ "\n"))
      else []
    ({ st with remaining := st.remaining - 1 }, msgs)
  else if st.timerRunning = true ∧ st.remaining ≤ 0 then
    ({ st with timerRunning := false }, conns.map (fun c => (c, "CMD:TIME_UP\n")))
  else (st, [])

/-- `TeacherServerGUI.unlock_entries` (lines 552–557). -/
def unlock_entries (st : SrvState) : SrvState :=
  { st with examStarted := false, timerRunning := false, remaining := 0 }

/-- Python `str.strip()` whitespace test (the six ASCII whitespace
characters Python strips). -/
def isPySpace (c : Char) : Bool :=
  c = ' ' ∨ c = '\t' ∨ c = '\n' ∨ c = '\r' ∨ c = '\x0b' ∨ c = '\x0c'

/-- Python `s.strip()`: drop leading and trailing whitespace. -/
def pyStrip (s : String) : String :=
  String.mk (((s.data.dropWhile isPySpace).reverse.dropWhile isPySpace).reverse)

/-- Helper for `pySplit`: split a character list at every single space,
keeping empty groups (Python `s.split(" ")` semantics with an explicit
separator). -/
def splitOnSpaceChars : List Char → List (List Char)
  | [] => [[]]
  | c :: rest =>
      match splitOnSpaceChars rest with
      | [] => [[]]
      | g :: gs => if c = ' ' then [] :: g :: gs else (c :: g) :: gs

/-- Python `data.split(" ")`: split on every single space character —
and on nothing else; in particular newlines never separate tokens. -/
def pySplit (s : String) : List String :=
  (splitOnSpaceChars s.data).map String.mk

/-- Python `s.upper()` on the ASCII command tokens. -/
def pyUpper (s : String) : String :=
  String.mk (s.data.map Char.toUpper)

/-- One iteration of the `handle_client` command loop (lines 332–499):
`data = conn.recv(...).decode().strip()`, `parts = data.split(" ")`,
`cmd = parts[0].upper()`, then the LOGIN / LIST / STOR / PING dispatch.
Returns (new state, replies sent on the control channel, whether the
loop `break`s).  Note the loop never splits `data` on newlines: the
whole buffer is one command line. -/
def handle_client_iteration (env : SrvEnv) (st : SrvState) (raw : String) :
    SrvState × List String × Bool :=
  let data := pyStrip raw
  if data = "" then (st, [], true)
  else
    let parts := pySplit data
    let cmd := pyUpper (parts.headD "")
    if cmd = "LOGIN" then
      if st.examStarted = true then
        (st, ["550 SINAV_BASLADI_GIRIS_YASAK\n"], true)
      else if parts.length < 3 then
        (st, ["530 Eksik bilgi. LOGIN <no> <sifre>\n"], false)
      else
        let sNo := pyStrip (parts.getD 1 "")
        let pw := pyStrip (parts.getD 2 "")
        let st1 := { st with studentNo := sNo }
        if (getK st1.connected sNo).isSome then
          (st1, ["550 ZATEN_BAGLI\n"], true)
        else
          match env.verify sNo pw with
          | (true, _) =>
              let st2 := { st1 with connected := setK st1.connected sNo st1.selfConn }
              -- `if self.exam_started and self.timer_running:` time sync
              let syncs :=
                if st2.examStarted = true ∧ st2.timerRunning = true then
                  ["CMD:SYNC:" ++ toString st2.remaining ++ "\n"]
                else []
              (st2, ["230 Giris Basarili\n"] ++ syncs, false)
          | (false, _) =>
              (st1, ["530 Hatali numara veya sifre\n"], false)
    else if cmd = "LIST" then
      if st.studentNo = "Bilinmiyor" then
        (st, ["530 Once giris yapin\n"], false)
      else
        (st, ["DATA_LIST:" ++ String.intercalate "," env.questionFiles ++ "\n"], false)
    else if cmd = "STOR" then
      if st.studentNo = "Bilinmiyor" then
        (st, ["530 Once giris yapin\n"], false)
      else if st.examStarted = false then
        (st, ["550 SINAV_BASLAMADI_YUKLEME_YASAK\n"], false)
      else if parts.length < 3 then
        (st, ["550 Eksik parametre\n"], false)
      else
        match pyInt (parts.getD 2 "") with
        | none => (st, ["550 Gecersiz dosya boyutu\n"], false)
        | some filesize =>
            if filesize > (env.maxFileSizeMB : Int) * 1024 * 1024 then
              (st, ["550 Dosya cok buyuk (max " ++ toString env.maxFileSizeMB ++ "MB)\n"],
                false)
            else
              let fname := parts.getD 1 ""
              let safe := st.studentNo ++ "_" ++ env.timestamp ++ "_" ++ fname
              -- inline receive loop, `chunk_size = min(BUFFER_SIZE, remaining)`
              let rcv := receiveLoop env.bufferSize filesize.toNat 0 [] env.ctrlBytes
              let st2 := { st with savedFiles := st.savedFiles ++ [(safe, rcv.1)] }
              if (rcv.2 : Int) = filesize then
                (st2, ["READY_TO_UPLOAD\n", "226 Transfer tamamlandi\n"], false)
              else
                (st2, ["READY_TO_UPLOAD\n", "550 Transfer yarim kaldi\n"], false)
    else if cmd = "PING" then
      (st, ["PONG\n"], false)
    else
      (st, ["500 Bilinmeyen komut\n"], false)

/-- The `finally` cleanup of `handle_client` (lines 503–513): after the
connection ends, `if student_no != "Bilinmiyor" and student_no in
connected_students: del connected_students[student_no]`.  The
disconnecting session's own handle `conn` is in scope (it is closed) but
the deletion never consults the handle stored in the registry entry. -/
def handle_client_cleanup (connected : List (String × Conn)) (studentNo : String)
    (conn : Conn) : List (String × Conn) :=
  if studentNo ≠ "Bilinmiyor" ∧ (getK connected studentNo).isSome then
    eraseK connected studentNo
  else connected

/-! ## Session/Credential Guard: `handle_user` / `handle_pass`
`server/protocol_handlers.py` lines 147–423.  The two handlers mutate
the `connected_students` and `_pending_logins` dicts; each mutation is
additionally recorded in a trace tagged with whether `_login_lock` is
held at that point, so that the lock-coverage part of the spec can be
checked.  The liveness probe `_safe_check_connection` is modelled by a
set of dead handles: the probe answers `False` exactly for handles in
the set, and `_force_disconnect` adds a handle to it. -/
/-- A committed Identity Registry entry (the `connected_students` value
dict; only the fields the guard logic reads are kept: the stored handle
and the display name). -/
structure Entry where
  conn : Conn
  name : String
  deriving DecidableEq, Repr

/-- The global mutable state the guard works on: the Identity Registry,
the Pending-Login Registry (`(conn, timestamp)` values), and the set of
dead handles. -/
structure GState where
  connected : List (String × Entry)
  pending : List (String × Conn × Nat)
  dead : List Conn
  deriving DecidableEq, Repr

/-- A single registry mutation. -/
inductive Mut where
  /-- `_cleanup_stale_pending_logins` popped a timed-out pending entry. -/
  | stalePurge (id : String)
  /-- `_pending_logins.pop(id, None)`. -/
  | pendingPop (id : String)
  /-- `_pending_logins[id] = (conn, now)`. -/
  | pendingSet (id : String) (c : Conn) (t : Nat)
  /-- `del connected_students[id]`. -/
  | connDel (id : String)
  /-- `connected_students[id] = {...}`. -/
  | connSet (id : String) (c : Conn)
  deriving DecidableEq, Repr

/-- A mutation together with whether `_login_lock` was held when it was
performed. -/
structure MutEv where
  locked : Bool
  kind : Mut
  deriving DecidableEq, Repr

/-- Environment of the login handlers. -/
structure LoginEnv where
  /-- `self.exam_started()`. -/
  examStarted : Bool
  /-- `self.get_exam_time_remaining()`. -/
  timeRemaining : Nat
  /-- `self.verify_student(no, password)`. -/
  verify : String → String → Bool × String
  /-- Whether `_safe_send` to a handle succeeds. -/
  sendOk : Conn → Bool

/-- `_safe_check_connection(c)`: the liveness probe, `True` iff the
handle is not dead. -/
def connAlive (g : GState) (c : Conn) : Bool :=
  !(g.dead.contains c)

/-- `_cleanup_stale_pending_logins()` (lines 64–79): entries older than
the 30 s timeout are popped.  Returns the surviving entries and the
purged identities. -/
def cleanupStale (p : List (String × Conn × Nat)) (now : Nat) :
    List (String × Conn × Nat) × List String :=
  (p.filter (fun e => now - e.2.2 ≤ 30),
    (p.filter (fun e => ¬ (now - e.2.2 ≤ 30))).map (·.1))

/-- The mutation events of a stale purge — performed *before* the
handler acquires `_login_lock`. -/
def staleMuts (ids : List String) : List MutEv :=
  ids.map (fun i => ⟨false, Mut.stalePurge i⟩)

/-- Result of one handler execution: new global state, the replies sent
to this connection, the returned `student_no` value, the
should-terminate flag, whether an exception propagated, and the
mutation trace. -/
structure HRes where
  g : GState
  replies : List String
  ret : String
  term : Bool
  raised : Bool
  muts : List MutEv
  deriving DecidableEq, Repr

/-- `550 ZATEN_BAGLI` reply, as delivered (a failed `_safe_send` delivers
nothing). -/
def zbR (env : LoginEnv) (conn : Conn) : List String :=
  if env.sendOk conn then ["550 ZATEN_BAGLI\n"] else []

/-- The recurring already-connected check of the guard (used at
`handle_user` lines 174–189, `handle_pass` lines 242–257, and the
repeated re-checks at lines 295–310, 327–342, 344–360, 366–379): if the
identity is registered to a *different* handle that answers the liveness
probe, reject with `550 ZATEN_BAGLI`; if the registered handle is dead,
force-disconnect it, evict the entry and continue; otherwise continue.
`popPending` marks the re-check variants that also pop the pending-login
entry on rejection.  All of this runs under `_login_lock`. -/
def checkConnRound (env : LoginEnv) (conn : Conn) (key ret : String) (popPending : Bool)
    (g : GState) (muts : List MutEv) (k : GState → List MutEv → HRes) : HRes :=
  match getK g.connected key with
  | some e =>
      if e.conn ≠ conn then
        if connAlive g e.conn = true then
          if popPending then
            ⟨{ g with pending := eraseK g.pending key }, zbR env conn, ret, true, false,
              muts ++ [⟨true, Mut.pendingPop key⟩]⟩
          else ⟨g, zbR env conn, ret, true, false, muts⟩
        else
          k { g with dead := e.conn :: g.dead, connected := eraseK g.connected key }
            (muts ++ [⟨true, Mut.connDel key⟩])
      else k g muts
  | none => k g muts

/-- `handle_user` final part: record the pending login, release the
lock, send `331` (a failed send re-acquires the lock and pops the
pending entry, lines 211–215). -/
def userFinish (env : LoginEnv) (conn : Conn) (uname sessNo : String) (now : Nat)
    (g : GState) (muts : List MutEv) : HRes :=
  let g2 := { g with pending := setK g.pending uname (conn, now) }
  let m2 := muts ++ [⟨true, Mut.pendingSet uname conn now⟩]
  if env.sendOk conn then ⟨g2, ["331 Password required.\n"], uname, false, false, m2⟩
  else
    ⟨{ g2 with pending := eraseK g2.pending uname }, [], sessNo, true, false,
      m2 ++ [⟨true, Mut.pendingPop uname⟩]⟩

/-- `handle_user` tail: the pending-login conflict check (lines 192–208)
and the `331` send outside the lock (lines 211–217). -/
def userPendB (env : LoginEnv) (conn : Conn) (uname sessNo : String) (now : Nat)
    (g : GState) (muts : List MutEv) : HRes :=
  match getK g.pending uname with
  | some pe =>
      if pe.1 ≠ conn then ⟨g, zbR env conn, sessNo, true, false, muts⟩
      else userFinish env conn uname sessNo now g muts
  | none => userFinish env conn uname sessNo now g muts

/-- `ProtocolHandler.handle_user` (lines 147–217). -/
def handle_user (env : LoginEnv) (g : GState) (conn : Conn) (userArg : Option String)
    (sessNo : String) (now : Nat) : HRes :=
  if env.examStarted = true then
    ⟨g, if env.sendOk conn then ["550 SINAV_BASLADI_GIRIS_YASAK\n"] else [],
      sessNo, true, false, []⟩
  else
    match userArg with
    | none =>
        -- `501` then `ProtocolViolationError` (send failure returns instead)
        if env.sendOk conn then
          ⟨g, ["501 Syntax error in parameters or arguments.\n"], sessNo, true, true, []⟩
        else ⟨g, [], sessNo, true, false, []⟩
    | some uname =>
        let cs := cleanupStale g.pending now
        checkConnRound env conn uname sessNo false { g with pending := cs.1 }
          (staleMuts cs.2)
          (fun g1 m1 => userPendB env conn uname sessNo now g1 m1)

/-- `handle_pass` commit section (lines 362–415): pop the pending entry,
final registry check, write the committed entry, post-write check, send
`230` and the optional `CMD:SYNC`. -/
def passCommit (env : LoginEnv) (conn : Conn) (sNo nm : String)
    (g : GState) (muts : List MutEv) : HRes :=
  let g7 := { g with connected := setK g.connected sNo ⟨conn, nm⟩ }
  let m7 := muts ++ [⟨true, Mut.connSet sNo conn⟩]
  match getK g7.connected sNo with
  | some e2 =>
      if e2.conn ≠ conn then
        ⟨{ g7 with connected := eraseK g7.connected sNo }, zbR env conn, sNo, true, false,
          m7 ++ [⟨true, Mut.connDel sNo⟩]⟩
      else
        if env.sendOk conn then
          let syncs :=
            if env.examStarted = true ∧ env.timeRemaining > 0 then
              ["CMD:SYNC:" ++ toString env.timeRemaining ++ "\n"]
            else []
          ⟨g7, ["230 User logged in, proceed.\n"] ++ syncs, sNo, false, false, m7⟩
        else
          ⟨{ g7 with connected := eraseK g7.connected sNo }, [], sNo, true, false,
            m7 ++ [⟨true, Mut.connDel sNo⟩]⟩
  | none =>
      -- dict access after the write cannot fail; Python would KeyError
      ⟨g7, [], sNo, true, true, m7⟩

/-- `handle_pass` lines 327–381: the "ULTIMATE" and "FINAL ULTIMATE"
re-checks, the pending pop, and the "FINAL CHECK" right before the
write. -/
def passUltimate (env : LoginEnv) (conn : Conn) (sNo nm : String)
    (g : GState) (muts : List MutEv) : HRes :=
  checkConnRound env conn sNo sNo true g muts (fun g3 m3 =>
    checkConnRound env conn sNo sNo true g3 m3 (fun g4 m4 =>
      let g5 := { g4 with pending := eraseK g4.pending sNo }
      let m5 := m4 ++ [⟨true, Mut.pendingPop sNo⟩]
      checkConnRound env conn sNo sNo false g5 m5 (fun g6 m6 =>
        passCommit env conn sNo nm g6 m6)))

/-- `handle_pass` lines 312–325: "make sure we're still the pending
login" (rejection here does *not* pop the other connection's pending
entry). -/
def passPendFinal (env : LoginEnv) (conn : Conn) (sNo nm : String)
    (g : GState) (muts : List MutEv) : HRes :=
  match getK g.pending sNo with
  | some pe =>
      if pe.1 ≠ conn then ⟨g, zbR env conn, sNo, true, false, muts⟩
      else passUltimate env conn sNo nm g muts
  | none => passUltimate env conn sNo nm g muts

/-- `handle_pass` lines 294–325 entry of the `is_valid` branch, and the
`530` failure branch (lines 416–423). -/
def passValidF (env : LoginEnv) (conn : Conn) (sNo : String)
    (g : GState) (muts : List MutEv) (v : Bool × String) : HRes :=
  if v.1 = true then
    checkConnRound env conn sNo sNo true g muts (fun g1 m1 =>
      passPendFinal env conn sNo v.2 g1 m1)
  else
    ⟨{ g with pending := eraseK g.pending sNo },
      if env.sendOk conn then ["530 Login incorrect.\n"] else [],
      "Bilinmiyor", false, false, muts ++ [⟨true, Mut.pendingPop sNo⟩]⟩

/-- `handle_pass` lines 281–292: the re-check immediately after
credential verification (still inside the lock); rejection pops the
pending entry.  Note this check does not evict a dead old handle. -/
def passRecheckE (env : LoginEnv) (conn : Conn) (sNo : String)
    (g : GState) (muts : List MutEv) (v : Bool × String) : HRes :=
  match getK g.connected sNo with
  | some e =>
      if e.conn ≠ conn ∧ connAlive g e.conn = true then
        ⟨{ g with pending := eraseK g.pending sNo }, zbR env conn, sNo, true, false,
          muts ++ [⟨true, Mut.pendingPop sNo⟩]⟩
      else passValidF env conn sNo g muts v
  | none => passValidF env conn sNo g muts v

/-- `handle_pass` lines 275–292: `_pending_logins[sNo] = (conn, now)`,
`verify_student`, then the post-verification re-check. -/
def passVerifyC (env : LoginEnv) (conn : Conn) (sNo pw : String) (now : Nat)
    (g : GState) (muts : List MutEv) : HRes :=
  let g2 := { g with pending := setK g.pending sNo (conn, now) }
  let m2 := muts ++ [⟨true, Mut.pendingSet sNo conn now⟩]
  passRecheckE env conn sNo g2 m2 (env.verify sNo pw)

/-- `handle_pass` lines 259–279: the pending-login conflict check, the
pending (re-)registration, and credential verification. -/
def passPendB (env : LoginEnv) (conn : Conn) (sNo pw : String) (now : Nat)
    (g : GState) (muts : List MutEv) : HRes :=
  match getK g.pending sNo with
  | some pe =>
      if pe.1 ≠ conn then ⟨g, zbR env conn, sNo, true, false, muts⟩
      else passVerifyC env conn sNo pw now g muts
  | none => passVerifyC env conn sNo pw now g muts

/-- `ProtocolHandler.handle_pass` (lines 219–423). -/
def handle_pass (env : LoginEnv) (g : GState) (conn : Conn) (pwArg : Option String)
    (pendingUsername : Option String) (sessNo : String) (now : Nat) : HRes :=
  match pendingUsername with
  | none =>
      ⟨g, if env.sendOk conn then ["503 Bad sequence of commands. Use USER first.\n"] else [],
        sessNo, false, false, []⟩
  | some sNo =>
      match pwArg with
      | none =>
          ⟨g, if env.sendOk conn then ["501 Syntax error in parameters or arguments.\n"] else [],
            sessNo, false, false, []⟩
      | some pw =>
          let cs := cleanupStale g.pending now
          checkConnRound env conn sNo sNo false { g with pending := cs.1 }
            (staleMuts cs.2)
            (fun g1 m1 => passPendB env conn sNo pw now g1 m1)

/-! ### Lock coverage of the registry mutations
Every mutation the handlers perform is under `_login_lock` *except* the
lazy stale-pending purge, which both handlers run before acquiring the
lock. -/
/-- Every mutation in the trace is either performed under the lock or is
a stale-pending purge. -/
def LockedOrStale (l : List MutEv) : Prop :=
  ∀ m ∈ l, m.locked = true ∨ ∃ i, m.kind = Mut.stalePurge i

/-! ### Concurrent login executions
The `_login_lock` makes each `handle_user` / `handle_pass` body atomic
across the process (spec §5: the guard's critical section is mutually
exclusive across all connections).  A concurrent execution of N
connections all logging in with the same `(identity, secret)` pair is
therefore an arbitrary interleaving of atomic handler invocations.  The
per-connection command loop that threads `pending_username` and the
handler results is the `ServerCore` module imported by `server_ui.py`
and is not under the source tree; its wiring is modelled from the spec
(§3 Session, §4.4 state machine). -/
/-- Where a connection stands in its `USER` → `PASS` script. -/
inductive Phase where
  | idle
  | awaitPass
  | finished
  deriving DecidableEq, Repr

/-- One racing connection: its handle, script position, terminate flag,
the replies it has received, and the session-loop state the wiring
threads (`pending_username`, `student_no`). -/
structure Part where
  conn : Conn
  phase : Phase
  term : Bool
  replies : List String
  pendingUsername : Option String
  sessNo : String
  deriving DecidableEq, Repr

/-- Global state of a race: the registries plus every connection's
session state. -/
structure SysState where
  g : GState
  parts : List Part
  deriving DecidableEq, Repr

/-- Modelled from the spec: one scheduler step of the race.  The
`ServerCore` per-connection loop (not under `src/`; spec §4.4: "Each
handler receives the full session context and returns an updated context
plus a should-terminate flag") runs connection `i`'s next command —
`USER ident` when idle, `PASS pw` when awaiting the password — at time
`t`, threading the handler's returned student number and recording the
pending username after a successful USER.  A terminated or finished
connection takes no further steps. -/
def stepSys (env : LoginEnv) (ident pw : String) (s : SysState) (i : Nat) (t : Nat) :
    SysState :=
  match s.parts.get? i with
  | none => s
  | some p =>
      if p.term = true ∨ p.phase = Phase.finished then s
      else
        match p.phase with
        | .idle =>
            let r := handle_user env s.g p.conn (some ident) p.sessNo t
            { g := r.g,
              parts := s.parts.set i
                { p with
                    phase := if r.term then p.phase else .awaitPass,
                    term := r.term,
                    replies := p.replies ++ r.replies,
                    pendingUsername := if r.term then p.pendingUsername else some r.ret,
                    sessNo := r.ret } }
        | .awaitPass =>
            let r := handle_pass env s.g p.conn (some pw) p.pendingUsername p.sessNo t
            { g := r.g,
              parts := s.parts.set i
                { p with
                    phase := if r.term then p.phase else .finished,
                    term := r.term,
                    replies := p.replies ++ r.replies,
                    sessNo := r.ret } }
        | .finished => s

/-- Run a whole schedule: a list of `(connection index, time)` steps. -/
def runSys (env : LoginEnv) (ident pw : String) (s : SysState)
    (steps : List (Nat × Nat)) : SysState :=
  steps.foldl (fun s st => stepSys env ident pw s st.1 st.2) s

/-- Initial race state: fresh sessions for the given handles. -/
def initSys (g0 : GState) (cs : List Conn) : SysState :=
  { g := g0,
    parts := cs.map (fun c => ⟨c, .idle, false, [], none, "Bilinmiyor"⟩) }

/-- The `230` success reply line. -/
def c230 : String := "230 User logged in, proceed.\n"

/-- The `550 ZATEN_BAGLI` rejection line. -/
def cZB : String := "550 ZATEN_BAGLI\n"

/-- The `331` password-prompt line. -/
def c331 : String := "331 Password required.\n"

/-- Invariant of a same-identity login race (identity `ident`, correct
secret, display name `nm`, racing handles `cs`): registry state and
per-connection profiles that hold in every reachable state. -/
structure LoginInv (ident nm : String) (cs : List Conn) (s : SysState) : Prop where
  /-- The participants are exactly the handles of `cs`, in order. -/
  conns : s.parts.map Part.conn = cs
  /-- Every participant's handle is alive (and stays alive: the guard
  only force-disconnects handles that already failed the probe). -/
  alive : ∀ p ∈ s.parts, s.g.dead.contains p.conn = false
  /-- A connection that has not yet run USER has received nothing. -/
  idle_prof : ∀ p ∈ s.parts, p.phase = .idle → p.term = false → p.replies = []
  /-- After a successful USER: exactly the `331` reply, and the wiring
  recorded the pending username. -/
  await_prof : ∀ p ∈ s.parts, p.phase = .awaitPass → p.term = false →
    p.replies = [c331] ∧ p.pendingUsername = some ident
  /-- A connection that finished its script unterminated is the winner:
  it is the committed registry entry and received `331` then `230`. -/
  fin_prof : ∀ p ∈ s.parts, p.phase = .finished → p.term = false →
    getK s.g.connected ident = some ⟨p.conn, nm⟩ ∧ p.replies = [c331, c230]
  /-- A terminated connection was rejected: exactly one `550
  ZATEN_BAGLI` and no `230`. -/
  term_prof : ∀ p ∈ s.parts, p.term = true →
    p.replies.count cZB = 1 ∧ p.replies.count c230 = 0
  /-- A committed entry belongs to a participant that won. -/
  conn_inv : ∀ e, getK s.g.connected ident = some e →
    ∃ p ∈ s.parts, p.conn = e.conn ∧ p.phase = .finished ∧ p.term = false ∧ e.name = nm
  /-- Before anyone commits, a pending entry for the identity belongs to
  a participant that passed USER and is still live. -/
  pend_inv : getK s.g.connected ident = none →
    ∀ pe ∈ s.g.pending, pe.1 = ident →
      ∃ p ∈ s.parts, p.conn = pe.2.1 ∧ p.phase = .awaitPass ∧ p.term = false
  /-- The Pending-Login Registry holds at most one entry for the
  identity. -/
  pend_uniq : ∀ pe ∈ s.g.pending, ∀ qe ∈ s.g.pending,
    pe.1 = ident → qe.1 = ident → pe.2 = qe.2
  /-- Once any participant has acted, the identity is committed or has a
  pending entry. -/
  progress : (∃ p ∈ s.parts, p.phase ≠ .idle ∨ p.term = true) →
    getK s.g.connected ident ≠ none ∨ ∃ pe ∈ s.g.pending, pe.1 = ident

/-- Environment of the concrete two-connection race used as witness:
exam not started, student 415576 / password 123456 valid, all control
channels deliverable. -/
def raceEnvW : LoginEnv :=
  ⟨false, 0,
    fun i p => if i == "415576" && p == "123456" then (true, "Ogrenci") else (false, ""),
    fun _ => true⟩

/-- The concrete race: handles 1 and 2, schedule
USER₁, USER₂, PASS₁, PASS₂. -/
def raceRunW : SysState :=
  runSys raceEnvW "415576" "123456" (initSys ⟨[], [], []⟩ [1, 2])
    [(0, 0), (1, 1), (0, 2), (1, 3)]

/-- Concrete successful STOR used to exhibit the reply/record order:
running exam, fresh port 50000, peer 9 delivering 4 bytes, save
succeeding, session in the registry. -/
def storEnvW : StorEnv :=
  ⟨true, 50, 4096, some 50000, "10.0.0.1", ⟨false, [9]⟩, [1, 2, 3, 4], true,
    "10:00:00", true⟩

/-- Concrete server-loop collaborators used in the C5 and C9 scenarios:
every credential verifies, no question files, empty control stream. -/
def srvEnvW : SrvEnv :=
  ⟨fun _ _ => (true, some "Ali"), [], [], 50, 4096, "20250101_100000"⟩

/-- Concrete per-connection state at the moment the countdown expires:
exam running, timer running, zero seconds left, one student connected. -/
def srvStW : SrvState :=
  ⟨"Bilinmiyor", [("415576", 2)], true, true, 0, 1, []⟩

/-- Closed form of the receive loop: it collects exactly
`min (expected - received) |s|` further bytes. -/
theorem receiveLoop_eq (opt : Nat) (hopt : 0 < opt) (expected : Nat) :
    ∀ (s : List Byte) (received : Nat) (acc : List Byte),
      receiveLoop opt expected received acc s =
        (acc ++ s.take (expected - received),
          received + min (expected - received) s.length) := by
  intro s
  generalize hn : s.length = n
  induction n using Nat.strong_induction_on generalizing s with
  | _ n ih =>
    intro received acc
    rw [receiveLoop]
    by_cases h : received < expected
    · rw [dif_pos h]
      by_cases hc : s.take (min opt (expected - received)) = []
      · rw [dif_pos hc]
        have hlen0 : min (min opt (expected - received)) s.length = 0 := by
          have := congrArg List.length hc
          rwa [List.length_take, List.length_nil] at this
        have hs : s = [] := by
          have : s.length = 0 := by omega
          exact List.length_eq_zero.mp this
        subst hs
        have hn0 : n = 0 := by simpa using hn.symm
        subst hn0
        simp
      · rw [dif_neg hc]
        set k := min opt (expected - received) with hk
        have hkub : k ≤ expected - received := Nat.min_le_right _ _
        have h2 : 0 < (s.take k).length := List.length_pos.mpr hc
        rw [List.length_take] at h2
        have hdrop : (s.drop k).length < n := by
          rw [List.length_drop]; omega
        rw [ih _ hdrop _ rfl]
        have htl : (s.take k).length = min k s.length := List.length_take k s
        subst hn
        simp only [Prod.mk.injEq]
        rcases Nat.le_total k s.length with hkl | hkl
        · have hlen : (s.take k).length = k := by rw [htl]; omega
          refine ⟨?_, ?_⟩
          · rw [List.append_assoc]
            congr 1
            rw [hlen, ← List.take_add]
            congr 1
            omega
          · rw [hlen, List.length_drop]
            omega
        · have hlen : (s.take k).length = s.length := by rw [htl]; omega
          have htake : s.take k = s := List.take_of_length_le hkl
          have hdropnil : s.drop k = [] := List.drop_eq_nil_of_le hkl
          have htake2 : s.take (expected - received) = s :=
            List.take_of_length_le (by omega)
          rw [htake, hdropnil, htake2]
          refine ⟨by simp, ?_⟩
          simp only [List.length_nil]
          omega
    · rw [dif_neg h]
      have h0 : expected - received = 0 := by omega
      subst hn
      simp [h0]

/-- `receive_file_data` reads `min expected |s|` bytes: the declared
prefix of the stream if the peer delivers enough, everything the peer
sent if it closes early. -/
theorem receive_file_data_eq (s : List Byte) (expectedSize : Int) (bufferSize : Nat) :
    receive_file_data s expectedSize bufferSize =
      (s.take expectedSize.toNat, min expectedSize.toNat s.length) := by
  unfold receive_file_data
  rw [receiveLoop_eq _ (by omega)]
  simp

theorem getK_eraseK_self {β : Type} (l : List (String × β)) (i : String) :
    getK (eraseK l i) i = none := by
  induction l with
  | nil => rfl
  | cons e rest ih =>
      obtain ⟨k, v⟩ := e
      by_cases h : k = i
      · simp [eraseK, h, ih]
      · simp [eraseK, getK, h, ih]

theorem getK_eraseK_ne {β : Type} (l : List (String × β)) (i j : String) (h : j ≠ i) :
    getK (eraseK l i) j = getK l j := by
  induction l with
  | nil => rfl
  | cons e rest ih =>
      obtain ⟨k, v⟩ := e
      simp only [eraseK, getK]
      by_cases hk : k = i
      · rw [if_pos hk, ih, if_neg (fun hkj => h (hkj.symm.trans hk))]
      · rw [if_neg hk]
        simp only [getK]
        by_cases hkj : k = j
        · rw [if_pos hkj, if_pos hkj]
        · rw [if_neg hkj, if_neg hkj, ih]

theorem getK_setK_self {β : Type} (l : List (String × β)) (i : String) (v : β) :
    getK (setK l i v) i = some v := by
  simp [setK, getK]

theorem getK_setK_ne {β : Type} (l : List (String × β)) (i j : String) (v : β) (h : j ≠ i) :
    getK (setK l i v) j = getK l j := by
  simp only [setK, getK]
  rw [if_neg (fun hh : i = j => h hh.symm)]
  exact getK_eraseK_ne l i j h

/-! ### Association-map lemmas used by the guard proofs -/
theorem getK_mem {β : Type} {l : List (String × β)} {k : String} {v : β}
    (h : getK l k = some v) : (k, v) ∈ l := by
  induction l with
  | nil => simp [getK] at h
  | cons e rest ih =>
      obtain ⟨k', v'⟩ := e
      simp only [getK] at h
      by_cases hk : k' = k
      · rw [if_pos hk] at h
        subst hk
        cases h
        exact List.mem_cons_self _ _
      · rw [if_neg hk] at h
        exact List.mem_cons_of_mem _ (ih h)

theorem mem_eraseK {β : Type} {l : List (String × β)} {k : String} {e : String × β}
    (h : e ∈ eraseK l k) : e ∈ l ∧ e.1 ≠ k := by
  induction l with
  | nil => simp [eraseK] at h
  | cons e' rest ih =>
      obtain ⟨k', v'⟩ := e'
      simp only [eraseK] at h
      by_cases hk : k' = k
      · rw [if_pos hk] at h
        obtain ⟨h1, h2⟩ := ih h
        exact ⟨List.mem_cons_of_mem _ h1, h2⟩
      · rw [if_neg hk] at h
        rcases List.mem_cons.mp h with h | h
        · subst h
          exact ⟨List.mem_cons_self _ _, hk⟩
        · obtain ⟨h1, h2⟩ := ih h
          exact ⟨List.mem_cons_of_mem _ h1, h2⟩

theorem mem_setK {β : Type} {l : List (String × β)} {k : String} {v : β} {e : String × β}
    (h : e ∈ setK l k v) : e = (k, v) ∨ (e ∈ l ∧ e.1 ≠ k) := by
  simp only [setK, List.mem_cons] at h
  rcases h with h | h
  · exact Or.inl h
  · exact Or.inr (mem_eraseK h)

theorem getK_eq_none_of_forall {β : Type} {l : List (String × β)} {k : String}
    (h : ∀ e ∈ l, e.1 ≠ k) : getK l k = none := by
  induction l with
  | nil => rfl
  | cons e rest ih =>
      obtain ⟨k', v'⟩ := e
      simp only [getK]
      rw [if_neg (h (k', v') (List.mem_cons_self _ _))]
      exact ih (fun e he => h e (List.mem_cons_of_mem _ he))

theorem forall_of_getK_eq_none {β : Type} {l : List (String × β)} {k : String}
    (h : getK l k = none) : ∀ e ∈ l, e.1 ≠ k := by
  intro e he hk
  induction l with
  | nil => simp at he
  | cons e' rest ih =>
      obtain ⟨k', v'⟩ := e'
      simp only [getK] at h
      rcases List.mem_cons.mp he with h1 | h1
      · subst h1
        rw [if_pos hk] at h
        cases h
      · by_cases hk' : k' = k
        · rw [if_pos hk'] at h; cases h
        · rw [if_neg hk'] at h
          exact ih h h1

theorem eraseK_idem {β : Type} (l : List (String × β)) (k : String) :
    eraseK (eraseK l k) k = eraseK l k := by
  induction l with
  | nil => rfl
  | cons e rest ih =>
      obtain ⟨k', v'⟩ := e
      simp only [eraseK]
      by_cases hk : k' = k
      · rw [if_pos hk, ih]
      · rw [if_neg hk]
        simp only [eraseK]
        rw [if_neg hk, ih]

theorem eraseK_setK_self {β : Type} (l : List (String × β)) (k : String) (v : β) :
    eraseK (setK l k v) k = eraseK l k := by
  simp only [setK, eraseK, if_pos rfl]
  exact eraseK_idem l k

theorem mem_cleanupStale {p : List (String × Conn × Nat)} {now : Nat}
    {e : String × Conn × Nat} (h : e ∈ (cleanupStale p now).1) : e ∈ p := by
  simp only [cleanupStale, List.mem_filter] at h
  exact h.1

/-! ### Case lemmas for the recurring already-connected check -/
theorem checkConnRound_noneK (env : LoginEnv) (conn : Conn) (key ret : String)
    (popPending : Bool) (g : GState) (muts : List MutEv)
    (k : GState → List MutEv → HRes) (h : getK g.connected key = none) :
    checkConnRound env conn key ret popPending g muts k = k g muts := by
  unfold checkConnRound
  rw [h]

theorem checkConnRound_selfK (env : LoginEnv) (conn : Conn) (key ret : String)
    (popPending : Bool) (g : GState) (muts : List MutEv)
    (k : GState → List MutEv → HRes) (e : Entry)
    (h : getK g.connected key = some e) (hc : e.conn = conn) :
    checkConnRound env conn key ret popPending g muts k = k g muts := by
  unfold checkConnRound
  rw [h]
  simp [hc]

theorem checkConnRound_alive_pop (env : LoginEnv) (conn : Conn) (key ret : String)
    (g : GState) (muts : List MutEv) (k : GState → List MutEv → HRes) (e : Entry)
    (h : getK g.connected key = some e) (hne : e.conn ≠ conn)
    (hal : connAlive g e.conn = true) :
    checkConnRound env conn key ret true g muts k =
      ⟨{ g with pending := eraseK g.pending key }, zbR env conn, ret, true, false,
        muts ++ [⟨true, Mut.pendingPop key⟩]⟩ := by
  unfold checkConnRound
  rw [h]
  simp [hne, hal]

theorem checkConnRound_alive_nopop (env : LoginEnv) (conn : Conn) (key ret : String)
    (g : GState) (muts : List MutEv) (k : GState → List MutEv → HRes) (e : Entry)
    (h : getK g.connected key = some e) (hne : e.conn ≠ conn)
    (hal : connAlive g e.conn = true) :
    checkConnRound env conn key ret false g muts k =
      ⟨g, zbR env conn, ret, true, false, muts⟩ := by
  unfold checkConnRound
  rw [h]
  simp [hne, hal]

/-! ### Behaviour of `handle_user` in the situations the race proof needs -/
theorem handle_user_ok (env : LoginEnv) (g : GState) (conn : Conn) (id sessNo : String)
    (now : Nat) (hexam : env.examStarted = false) (hsend : env.sendOk conn = true)
    (hc : getK g.connected id = none)
    (hp : getK (cleanupStale g.pending now).1 id = none) :
    handle_user env g conn (some id) sessNo now =
      ⟨⟨g.connected, setK (cleanupStale g.pending now).1 id (conn, now), g.dead⟩,
        ["331 Password required.\n"], id, false, false,
        staleMuts (cleanupStale g.pending now).2 ++ [⟨true, Mut.pendingSet id conn now⟩]⟩ := by
  simp [handle_user, checkConnRound, userPendB, userFinish, hexam, hsend, hc, hp]

theorem handle_user_reject_connected (env : LoginEnv) (g : GState) (conn : Conn)
    (id sessNo : String) (now : Nat) (e : Entry)
    (hexam : env.examStarted = false) (hsend : env.sendOk conn = true)
    (hc : getK g.connected id = some e) (hne : e.conn ≠ conn)
    (hal : connAlive g e.conn = true) :
    handle_user env g conn (some id) sessNo now =
      ⟨⟨g.connected, (cleanupStale g.pending now).1, g.dead⟩,
        ["550 ZATEN_BAGLI\n"], sessNo, true, false,
        staleMuts (cleanupStale g.pending now).2⟩ := by
  have hal2 : e.conn ∉ g.dead := by
    intro hmem
    simp [connAlive, hmem] at hal
  simp [handle_user, checkConnRound, connAlive, zbR, hexam, hsend, hc, hne, hal2]

theorem handle_user_reject_pending (env : LoginEnv) (g : GState) (conn : Conn)
    (id sessNo : String) (now : Nat) (pe : Conn × Nat)
    (hexam : env.examStarted = false) (hsend : env.sendOk conn = true)
    (hc : getK g.connected id = none)
    (hp : getK (cleanupStale g.pending now).1 id = some pe) (hne : pe.1 ≠ conn) :
    handle_user env g conn (some id) sessNo now =
      ⟨⟨g.connected, (cleanupStale g.pending now).1, g.dead⟩,
        ["550 ZATEN_BAGLI\n"], sessNo, true, false,
        staleMuts (cleanupStale g.pending now).2⟩ := by
  simp [handle_user, checkConnRound, userPendB, zbR, hexam, hsend, hc, hp, hne]

/-! ### Behaviour of `handle_pass` in the situations the race proof needs -/
theorem handle_pass_reject_connected (env : LoginEnv) (g : GState) (conn : Conn)
    (id pw sessNo : String) (now : Nat) (e : Entry)
    (hsend : env.sendOk conn = true)
    (hc : getK g.connected id = some e) (hne : e.conn ≠ conn)
    (hal : connAlive g e.conn = true) :
    handle_pass env g conn (some pw) (some id) sessNo now =
      ⟨⟨g.connected, (cleanupStale g.pending now).1, g.dead⟩,
        ["550 ZATEN_BAGLI\n"], id, true, false,
        staleMuts (cleanupStale g.pending now).2⟩ := by
  have hal2 : e.conn ∉ g.dead := by
    intro hmem
    simp [connAlive, hmem] at hal
  simp [handle_pass, checkConnRound, connAlive, zbR, hsend, hc, hne, hal2]

theorem handle_pass_reject_pending (env : LoginEnv) (g : GState) (conn : Conn)
    (id pw sessNo : String) (now : Nat) (pe : Conn × Nat)
    (hsend : env.sendOk conn = true)
    (hc : getK g.connected id = none)
    (hp : getK (cleanupStale g.pending now).1 id = some pe) (hne : pe.1 ≠ conn) :
    handle_pass env g conn (some pw) (some id) sessNo now =
      ⟨⟨g.connected, (cleanupStale g.pending now).1, g.dead⟩,
        ["550 ZATEN_BAGLI\n"], id, true, false,
        staleMuts (cleanupStale g.pending now).2⟩ := by
  simp [handle_pass, checkConnRound, passPendB, zbR, hsend, hc, hp, hne]

theorem handle_pass_commit (env : LoginEnv) (g : GState) (conn : Conn)
    (id pw sessNo nm : String) (now : Nat)
    (hexam : env.examStarted = false) (hsend : env.sendOk conn = true)
    (hverify : env.verify id pw = (true, nm))
    (hc : getK g.connected id = none)
    (hp : getK (cleanupStale g.pending now).1 id = none ∨
          ∃ t, getK (cleanupStale g.pending now).1 id = some (conn, t)) :
    handle_pass env g conn (some pw) (some id) sessNo now =
      ⟨⟨setK g.connected id ⟨conn, nm⟩, eraseK (cleanupStale g.pending now).1 id, g.dead⟩,
        ["230 User logged in, proceed.\n"], id, false, false,
        staleMuts (cleanupStale g.pending now).2 ++
          [⟨true, Mut.pendingSet id conn now⟩, ⟨true, Mut.pendingPop id⟩,
            ⟨true, Mut.connSet id conn⟩]⟩ := by
  rcases hp with hp | ⟨t, hp⟩ <;>
    simp [handle_pass, checkConnRound, passPendB, passVerifyC, passRecheckE, passValidF,
      passPendFinal, passUltimate, passCommit, getK_setK_self, eraseK_setK_self,
      hexam, hsend, hverify, hc, hp]

theorem lockedOrStale_staleMuts (ids : List String) : LockedOrStale (staleMuts ids) := by
  intro m hm
  simp only [staleMuts, List.mem_map] at hm
  obtain ⟨i, _, rfl⟩ := hm
  exact Or.inr ⟨i, rfl⟩

theorem lockedOrStale_append {a b : List MutEv} (ha : LockedOrStale a)
    (hb : LockedOrStale b) : LockedOrStale (a ++ b) := by
  intro m hm
  rcases List.mem_append.mp hm with h | h
  · exact ha m h
  · exact hb m h

theorem lockedOrStale_true (k : Mut) : LockedOrStale [⟨true, k⟩] := by
  intro m hm
  simp only [List.mem_singleton] at hm
  subst hm
  exact Or.inl rfl

theorem lockedOrStale_nil : LockedOrStale [] := by
  intro m hm
  simp at hm

theorem checkConnRound_muts (env : LoginEnv) (conn : Conn) (key ret : String)
    (popPending : Bool) (g : GState) (muts : List MutEv)
    (k : GState → List MutEv → HRes) (h : LockedOrStale muts)
    (hk : ∀ g' m', LockedOrStale m' → LockedOrStale (k g' m').muts) :
    LockedOrStale (checkConnRound env conn key ret popPending g muts k).muts := by
  unfold checkConnRound
  cases hG : getK g.connected key with
  | none => exact hk _ _ h
  | some e =>
      dsimp only
      by_cases h1 : e.conn ≠ conn
      · rw [if_pos h1]
        by_cases h2 : connAlive g e.conn = true
        · rw [if_pos h2]
          cases popPending with
          | true => exact lockedOrStale_append h (lockedOrStale_true _)
          | false => exact h
        · rw [if_neg h2]
          exact hk _ _ (lockedOrStale_append h (lockedOrStale_true _))
      · rw [if_neg h1]
        exact hk _ _ h

theorem userFinish_muts (env : LoginEnv) (conn : Conn) (uname sessNo : String)
    (now : Nat) (g : GState) (muts : List MutEv) (h : LockedOrStale muts) :
    LockedOrStale (userFinish env conn uname sessNo now g muts).muts := by
  unfold userFinish
  by_cases hs : env.sendOk conn = true
  · rw [if_pos hs]
    exact lockedOrStale_append h (lockedOrStale_true _)
  · rw [if_neg hs]
    exact lockedOrStale_append (lockedOrStale_append h (lockedOrStale_true _))
      (lockedOrStale_true _)

theorem userPendB_muts (env : LoginEnv) (conn : Conn) (uname sessNo : String)
    (now : Nat) (g : GState) (muts : List MutEv) (h : LockedOrStale muts) :
    LockedOrStale (userPendB env conn uname sessNo now g muts).muts := by
  unfold userPendB
  cases getK g.pending uname with
  | none => exact userFinish_muts _ _ _ _ _ _ _ h
  | some pe =>
      dsimp only
      by_cases h1 : pe.1 ≠ conn
      · rw [if_pos h1]
        exact h
      · rw [if_neg h1]
        exact userFinish_muts _ _ _ _ _ _ _ h

/-- Every registry / pending-login mutation `handle_user` performs is
under `_login_lock`, except the lazy stale-pending purge at entry. -/
theorem handle_user_muts (env : LoginEnv) (g : GState) (conn : Conn)
    (userArg : Option String) (sessNo : String) (now : Nat) :
    LockedOrStale (handle_user env g conn userArg sessNo now).muts := by
  unfold handle_user
  by_cases he : env.examStarted = true
  · rw [if_pos he]
    exact lockedOrStale_nil
  · rw [if_neg he]
    cases userArg with
    | none =>
        by_cases hs : env.sendOk conn = true
        · rw [if_pos hs]; exact lockedOrStale_nil
        · rw [if_neg hs]; exact lockedOrStale_nil
    | some uname =>
        exact checkConnRound_muts _ _ _ _ _ _ _ _ (lockedOrStale_staleMuts _)
          (fun g' m' h' => userPendB_muts _ _ _ _ _ _ _ h')

theorem passCommit_muts (env : LoginEnv) (conn : Conn) (sNo nm : String)
    (g : GState) (muts : List MutEv) (h : LockedOrStale muts) :
    LockedOrStale (passCommit env conn sNo nm g muts).muts := by
  unfold passCommit
  dsimp only
  cases getK (setK g.connected sNo ⟨conn, nm⟩) sNo with
  | none => exact lockedOrStale_append h (lockedOrStale_true _)
  | some e2 =>
      dsimp only
      by_cases h1 : e2.conn ≠ conn
      · rw [if_pos h1]
        exact lockedOrStale_append (lockedOrStale_append h (lockedOrStale_true _))
          (lockedOrStale_true _)
      · rw [if_neg h1]
        by_cases hs : env.sendOk conn = true
        · rw [if_pos hs]
          exact lockedOrStale_append h (lockedOrStale_true _)
        · rw [if_neg hs]
          exact lockedOrStale_append (lockedOrStale_append h (lockedOrStale_true _))
            (lockedOrStale_true _)

theorem passUltimate_muts (env : LoginEnv) (conn : Conn) (sNo nm : String)
    (g : GState) (muts : List MutEv) (h : LockedOrStale muts) :
    LockedOrStale (passUltimate env conn sNo nm g muts).muts := by
  unfold passUltimate
  refine checkConnRound_muts _ _ _ _ _ _ _ _ h (fun g3 m3 h3 => ?_)
  refine checkConnRound_muts _ _ _ _ _ _ _ _ h3 (fun g4 m4 h4 => ?_)
  refine checkConnRound_muts _ _ _ _ _ _ _ _
    (lockedOrStale_append h4 (lockedOrStale_true _)) (fun g6 m6 h6 => ?_)
  exact passCommit_muts _ _ _ _ _ _ h6

theorem passPendFinal_muts (env : LoginEnv) (conn : Conn) (sNo nm : String)
    (g : GState) (muts : List MutEv) (h : LockedOrStale muts) :
    LockedOrStale (passPendFinal env conn sNo nm g muts).muts := by
  unfold passPendFinal
  cases getK g.pending sNo with
  | none => exact passUltimate_muts _ _ _ _ _ _ h
  | some pe =>
      dsimp only
      by_cases h1 : pe.1 ≠ conn
      · rw [if_pos h1]; exact h
      · rw [if_neg h1]; exact passUltimate_muts _ _ _ _ _ _ h

theorem passValidF_muts (env : LoginEnv) (conn : Conn) (sNo : String)
    (g : GState) (muts : List MutEv) (v : Bool × String) (h : LockedOrStale muts) :
    LockedOrStale (passValidF env conn sNo g muts v).muts := by
  unfold passValidF
  by_cases h1 : v.1 = true
  · rw [if_pos h1]
    exact checkConnRound_muts _ _ _ _ _ _ _ _ h
      (fun g1 m1 h1' => passPendFinal_muts _ _ _ _ _ _ h1')
  · rw [if_neg h1]
    exact lockedOrStale_append h (lockedOrStale_true _)

theorem passRecheckE_muts (env : LoginEnv) (conn : Conn) (sNo : String)
    (g : GState) (muts : List MutEv) (v : Bool × String) (h : LockedOrStale muts) :
    LockedOrStale (passRecheckE env conn sNo g muts v).muts := by
  unfold passRecheckE
  cases getK g.connected sNo with
  | none => exact passValidF_muts _ _ _ _ _ _ h
  | some e =>
      dsimp only
      by_cases h1 : e.conn ≠ conn ∧ connAlive g e.conn = true
      · rw [if_pos h1]
        exact lockedOrStale_append h (lockedOrStale_true _)
      · rw [if_neg h1]
        exact passValidF_muts _ _ _ _ _ _ h

theorem passPendB_muts (env : LoginEnv) (conn : Conn) (sNo pw : String) (now : Nat)
    (g : GState) (muts : List MutEv) (h : LockedOrStale muts) :
    LockedOrStale (passPendB env conn sNo pw now g muts).muts := by
  unfold passPendB passVerifyC
  cases getK g.pending sNo with
  | none =>
      exact passRecheckE_muts _ _ _ _ _ _ (lockedOrStale_append h (lockedOrStale_true _))
  | some pe =>
      dsimp only
      by_cases h1 : pe.1 ≠ conn
      · rw [if_pos h1]; exact h
      · rw [if_neg h1]
        exact passRecheckE_muts _ _ _ _ _ _ (lockedOrStale_append h (lockedOrStale_true _))

/-- Every registry / pending-login mutation `handle_pass` performs is
under `_login_lock`, except the lazy stale-pending purge at entry. -/
theorem handle_pass_muts (env : LoginEnv) (g : GState) (conn : Conn)
    (pwArg pendingUsername : Option String) (sessNo : String) (now : Nat) :
    LockedOrStale (handle_pass env g conn pwArg pendingUsername sessNo now).muts := by
  unfold handle_pass
  cases pendingUsername with
  | none => exact lockedOrStale_nil
  | some sNo =>
      cases pwArg with
      | none => exact lockedOrStale_nil
      | some pw =>
          exact checkConnRound_muts _ _ _ _ _ _ _ _ (lockedOrStale_staleMuts _)
            (fun g1 m1 h1 => passPendB_muts _ _ _ _ _ _ _ h1)

/-! ### List plumbing for the race proof -/
theorem get?_set_other {α : Type} : ∀ (l : List α) (i j : Nat) (b : α), i ≠ j →
    (l.set i b).get? j = l.get? j
  | [], _, _, _, _ => rfl
  | _ :: _, 0, 0, _, h => absurd rfl h
  | _ :: _, 0, _ + 1, _, _ => rfl
  | _ :: _, _ + 1, 0, _, _ => rfl
  | _ :: l, i + 1, j + 1, b, h =>
      get?_set_other l i j b (fun hh => h (by omega))

theorem set_get?_self {α : Type} : ∀ (l : List α) (i : Nat) (a : α),
    l.get? i = some a → l.set i a = l
  | [], _, _, h => by cases h
  | x :: l, 0, a, h => by
      simp only [List.get?] at h
      cases h
      rfl
  | x :: l, i + 1, a, h => by
      simp only [List.get?] at h
      simp only [List.set]
      rw [set_get?_self l i a h]

theorem get?_set_self {α : Type} : ∀ (l : List α) (i : Nat) (a b : α),
    l.get? i = some a → (l.set i b).get? i = some b
  | [], _, _, _, h => by cases h
  | x :: l, 0, a, b, _ => rfl
  | x :: l, i + 1, a, b, h => by
      simp only [List.get?] at h
      simp only [List.set, List.get?]
      exact get?_set_self l i a b h

theorem mem_set_self {α : Type} {l : List α} {i : Nat} {a : α} (b : α)
    (h : l.get? i = some a) : b ∈ l.set i b :=
  List.get?_mem (get?_set_self l i a b h)

theorem mem_set_of_ne {α : Type} {l : List α} {i : Nat} {p q : α} (b : α)
    (hq : q ∈ l) (hp : l.get? i = some p) (hne : q ≠ p) : q ∈ l.set i b := by
  obtain ⟨j, hj⟩ := List.mem_iff_get?.mp hq
  have hij : i ≠ j := by
    intro hij
    subst hij
    rw [hp] at hj
    cases hj
    exact hne rfl
  exact List.get?_mem (by rw [get?_set_other l i j b hij]; exact hj)

theorem map_set_same {α β : Type} (f : α → β) (l : List α) (i : Nat) (p p' : α)
    (hp : l.get? i = some p) (hc : f p' = f p) :
    (l.set i p').map f = l.map f := by
  rw [List.map_set]
  rw [hc]
  apply set_get?_self
  rw [List.get?_map, hp]
  rfl

/-- From distinct handles: two participants with the same handle are the
same participant. -/
theorem parts_inj {cs : List Conn} {s : SysState} (hconns : s.parts.map Part.conn = cs)
    (hnodup : cs.Nodup) :
    ∀ p ∈ s.parts, ∀ q ∈ s.parts, p.conn = q.conn → p = q := by
  have h : (s.parts.map Part.conn).Nodup := by rw [hconns]; exact hnodup
  intro p hp q hq hpq
  exact List.inj_on_of_nodup_map h hp hq hpq

/-- The invariant survives any step on which connection `i` is rejected
with `550 ZATEN_BAGLI`: the registries keep their committed entry, the
pending registry is the stale-purged one, and the connection terminates
with exactly one rejection line appended. -/
theorem LoginInv.reject (ident nm : String) (cs : List Conn) (s : SysState)
    (hinv : LoginInv ident nm cs s)
    (i t : Nat) (p : Part) (newSess : String)
    (hp : s.parts.get? i = some p) (hterm : p.term = false) (hfin : p.phase ≠ .finished)
    (hrep : p.replies = [] ∨ p.replies = [c331])
    (hnotp : getK s.g.connected ident = none →
      ∀ pe ∈ s.g.pending, pe.1 = ident → pe.2.1 ≠ p.conn)
    (hprog : getK s.g.connected ident ≠ none ∨
      ∃ pe ∈ (cleanupStale s.g.pending t).1, pe.1 = ident) :
    LoginInv ident nm cs
      ⟨⟨s.g.connected, (cleanupStale s.g.pending t).1, s.g.dead⟩,
        s.parts.set i ⟨p.conn, p.phase, true, p.replies ++ [cZB], p.pendingUsername, newSess⟩⟩ := by
  have hpmem : p ∈ s.parts := List.get?_mem hp
  set p' : Part := ⟨p.conn, p.phase, true, p.replies ++ [cZB], p.pendingUsername, newSess⟩
    with hp'
  have hmem : ∀ q ∈ s.parts.set i p', q ∈ s.parts ∨ q = p' :=
    fun q hq => List.mem_or_eq_of_mem_set hq
  refine ⟨?_, ?_, ?_, ?_, ?_, ?_, ?_, ?_, ?_, ?_⟩
  · show (s.parts.set i p').map Part.conn = cs
    rw [map_set_same Part.conn s.parts i p p' hp rfl]
    exact hinv.conns
  · intro q hq
    rcases hmem q hq with h | h
    · exact hinv.alive q h
    · subst h
      exact hinv.alive p hpmem
  · intro q hq h1 h2
    rcases hmem q hq with h | h
    · exact hinv.idle_prof q h h1 h2
    · subst h
      simp at h2
  · intro q hq h1 h2
    rcases hmem q hq with h | h
    · exact hinv.await_prof q h h1 h2
    · subst h
      simp at h2
  · intro q hq h1 h2
    rcases hmem q hq with h | h
    · exact hinv.fin_prof q h h1 h2
    · subst h
      simp at h2
  · intro q hq h1
    rcases hmem q hq with h | h
    · exact hinv.term_prof q h h1
    · subst h
      simp only [hp']
      rcases hrep with h | h <;>
        simp [h, List.count_append, List.count_cons, List.count_nil, cZB, c230, c331]
  · intro e he
    obtain ⟨q, hqmem, hq1, hq2, hq3, hq4⟩ := hinv.conn_inv e he
    have hqp : q ≠ p := by
      intro hqp
      subst hqp
      exact hfin hq2
    exact ⟨q, mem_set_of_ne _ hqmem hp hqp, hq1, hq2, hq3, hq4⟩
  · intro hnone pe hpe hkey
    have hpend : pe ∈ s.g.pending := mem_cleanupStale hpe
    obtain ⟨q, hqmem, hq1, hq2, hq3⟩ := hinv.pend_inv hnone pe hpend hkey
    have hqp : q ≠ p := by
      intro hqp
      subst hqp
      exact hnotp hnone pe hpend hkey (hq1 ▸ rfl)
    exact ⟨q, mem_set_of_ne _ hqmem hp hqp, hq1, hq2, hq3⟩
  · intro pe hpe qe hqe h1 h2
    exact hinv.pend_uniq pe (mem_cleanupStale hpe) qe (mem_cleanupStale hqe) h1 h2
  · intro _
    exact hprog

/-- The invariant survives a successful USER step: the stepping
connection becomes the unique pending login. -/
theorem LoginInv.userOk (ident nm : String) (cs : List Conn) (s : SysState)
    (hinv : LoginInv ident nm cs s) (i t : Nat) (p : Part)
    (hp : s.parts.get? i = some p) (hterm : p.term = false) (hph : p.phase = .idle)
    (hcic : getK s.g.connected ident = none) :
    LoginInv ident nm cs
      ⟨⟨s.g.connected, setK (cleanupStale s.g.pending t).1 ident (p.conn, t), s.g.dead⟩,
        s.parts.set i ⟨p.conn, .awaitPass, false, p.replies ++ [c331], some ident, ident⟩⟩ := by
  have hpmem : p ∈ s.parts := List.get?_mem hp
  have hrep0 : p.replies = [] := hinv.idle_prof p hpmem hph hterm
  set p' : Part := ⟨p.conn, .awaitPass, false, p.replies ++ [c331], some ident, ident⟩
    with hp'
  have hmem : ∀ q ∈ s.parts.set i p', q ∈ s.parts ∨ q = p' :=
    fun q hq => List.mem_or_eq_of_mem_set hq
  refine ⟨?_, ?_, ?_, ?_, ?_, ?_, ?_, ?_, ?_, ?_⟩
  · show (s.parts.set i p').map Part.conn = cs
    rw [map_set_same Part.conn s.parts i p p' hp rfl]
    exact hinv.conns
  · intro q hq
    rcases hmem q hq with h | h
    · exact hinv.alive q h
    · subst h
      exact hinv.alive p hpmem
  · intro q hq h1 h2
    rcases hmem q hq with h | h
    · exact hinv.idle_prof q h h1 h2
    · subst h
      simp at h1
  · intro q hq h1 h2
    rcases hmem q hq with h | h
    · exact hinv.await_prof q h h1 h2
    · subst h
      simp [hp', hrep0]
  · intro q hq h1 h2
    rcases hmem q hq with h | h
    · exact hinv.fin_prof q h h1 h2
    · subst h
      simp at h1
  · intro q hq h1
    rcases hmem q hq with h | h
    · exact hinv.term_prof q h h1
    · subst h
      simp at h1
  · intro e he
    rw [show getK
        (⟨⟨s.g.connected, setK (cleanupStale s.g.pending t).1 ident (p.conn, t), s.g.dead⟩,
          s.parts.set i p'⟩ : SysState).g.connected ident = none from hcic] at he
    cases he
  · intro _ pe hpe hkey
    rcases mem_setK hpe with h | ⟨_, hne⟩
    · refine ⟨p', mem_set_self p' hp, ?_, rfl, rfl⟩
      rw [h]
    · exact absurd hkey hne
  · intro pe hpe qe hqe h1 h2
    rcases mem_setK hpe with h | ⟨_, hne⟩
    · rcases mem_setK hqe with h' | ⟨_, hne'⟩
      · rw [h, h']
      · exact absurd h2 hne'
    · exact absurd h1 hne
  · intro _
    exact Or.inr ⟨(ident, (p.conn, t)), List.mem_cons_self _ _, rfl⟩

/-- The invariant survives a successful PASS step: the stepping
connection commits the registry entry, pops its pending entry and
becomes the winner. -/
theorem LoginInv.passOk (ident nm : String) (cs : List Conn) (s : SysState)
    (hinv : LoginInv ident nm cs s) (i t : Nat) (p : Part)
    (hp : s.parts.get? i = some p) (hterm : p.term = false) (hph : p.phase = .awaitPass)
    (hcic : getK s.g.connected ident = none) :
    LoginInv ident nm cs
      ⟨⟨setK s.g.connected ident ⟨p.conn, nm⟩,
          eraseK (cleanupStale s.g.pending t).1 ident, s.g.dead⟩,
        s.parts.set i ⟨p.conn, .finished, false, p.replies ++ [c230], p.pendingUsername,
          ident⟩⟩ := by
  have hpmem : p ∈ s.parts := List.get?_mem hp
  have hrep : p.replies = [c331] := (hinv.await_prof p hpmem hph hterm).1
  set p' : Part := ⟨p.conn, .finished, false, p.replies ++ [c230], p.pendingUsername, ident⟩
    with hp'
  have hmem : ∀ q ∈ s.parts.set i p', q ∈ s.parts ∨ q = p' :=
    fun q hq => List.mem_or_eq_of_mem_set hq
  have hgetnew : getK (setK s.g.connected ident ⟨p.conn, nm⟩) ident =
      some ⟨p.conn, nm⟩ := getK_setK_self _ _ _
  refine ⟨?_, ?_, ?_, ?_, ?_, ?_, ?_, ?_, ?_, ?_⟩
  · show (s.parts.set i p').map Part.conn = cs
    rw [map_set_same Part.conn s.parts i p p' hp rfl]
    exact hinv.conns
  · intro q hq
    rcases hmem q hq with h | h
    · exact hinv.alive q h
    · subst h
      exact hinv.alive p hpmem
  · intro q hq h1 h2
    rcases hmem q hq with h | h
    · exact hinv.idle_prof q h h1 h2
    · subst h
      simp at h1
  · intro q hq h1 h2
    rcases hmem q hq with h | h
    · exact hinv.await_prof q h h1 h2
    · subst h
      simp at h1
  · intro q hq h1 h2
    rcases hmem q hq with h | h
    · obtain ⟨hq1, _⟩ := hinv.fin_prof q h h1 h2
      rw [hcic] at hq1
      cases hq1
    · subst h
      exact ⟨hgetnew, by simp [hp', hrep]⟩
  · intro q hq h1
    rcases hmem q hq with h | h
    · exact hinv.term_prof q h h1
    · subst h
      simp at h1
  · intro e he
    rw [hgetnew] at he
    cases he
    exact ⟨p', mem_set_self p' hp, rfl, rfl, rfl, rfl⟩
  · intro hnone
    rw [hgetnew] at hnone
    cases hnone
  · intro pe hpe qe hqe h1 h2
    exact absurd h1 (mem_eraseK hpe).2
  · intro _
    rw [hgetnew]
    exact Or.inl (fun h => by cases h)

/-- One scheduler step preserves the race invariant, for live
connections with deliverable replies racing on a valid credential. -/
theorem stepSys_preserves (env : LoginEnv) (ident pw nm : String) (cs : List Conn)
    (hexam : env.examStarted = false) (hsend : ∀ c, env.sendOk c = true)
    (hverify : env.verify ident pw = (true, nm)) (hnodup : cs.Nodup)
    (s : SysState) (i t : Nat) (hinv : LoginInv ident nm cs s) :
    LoginInv ident nm cs (stepSys env ident pw s i t) := by
  unfold stepSys
  cases hp : s.parts.get? i with
  | none => exact hinv
  | some p =>
      dsimp only
      by_cases hterm : p.term = true ∨ p.phase = Phase.finished
      · rw [if_pos hterm]
        exact hinv
      · rw [if_neg hterm]
        push_neg at hterm
        obtain ⟨hterm1, hterm2⟩ := hterm
        have htermF : p.term = false := by
          cases hpt : p.term
          · rfl
          · exact absurd hpt hterm1
        have hpmem : p ∈ s.parts := List.get?_mem hp
        have hinj := parts_inj hinv.conns hnodup
        cases hph : p.phase with
        | finished => exact absurd hph hterm2
        | idle =>
            dsimp only
            cases hcic : getK s.g.connected ident with
            | some e =>
                obtain ⟨q, hqmem, hq1, hq2, hq3, hq4⟩ := hinv.conn_inv e hcic
                have hqp : q ≠ p := by
                  intro h
                  rw [h, hph] at hq2
                  cases hq2
                have hne : e.conn ≠ p.conn := by
                  intro h
                  exact hqp (hinj q hqmem p hpmem (by rw [hq1, h]))
                have hal : connAlive s.g e.conn = true := by
                  have ha := hinv.alive q hqmem
                  rw [hq1] at ha
                  unfold connAlive
                  rw [ha]
                  rfl
                rw [handle_user_reject_connected env s.g p.conn ident p.sessNo t e hexam
                  (hsend _) hcic hne hal]
                dsimp only
                have hr := LoginInv.reject ident nm cs s hinv i t p p.sessNo hp htermF
                  (by rw [hph]; intro h; cases h)
                  (Or.inl (hinv.idle_prof p hpmem hph htermF))
                  (fun hnone => by rw [hcic] at hnone; cases hnone)
                  (Or.inl (by rw [hcic]; intro h; cases h))
                rw [hph] at hr
                exact hr
            | none =>
                cases hpc : getK (cleanupStale s.g.pending t).1 ident with
                | some pe =>
                    have hmemc : (ident, pe) ∈ (cleanupStale s.g.pending t).1 :=
                      getK_mem hpc
                    have hmemp : (ident, pe) ∈ s.g.pending := mem_cleanupStale hmemc
                    obtain ⟨q, hqmem, hq1, hq2, hq3⟩ :=
                      hinv.pend_inv hcic (ident, pe) hmemp rfl
                    have hqp : q ≠ p := by
                      intro h
                      rw [h, hph] at hq2
                      cases hq2
                    have hne : pe.1 ≠ p.conn := by
                      intro h
                      exact hqp (hinj q hqmem p hpmem (by rw [hq1]; exact h))
                    rw [handle_user_reject_pending env s.g p.conn ident p.sessNo t pe hexam
                      (hsend _) hcic hpc hne]
                    dsimp only
                    have hr := LoginInv.reject ident nm cs s hinv i t p p.sessNo hp htermF
                      (by rw [hph]; intro h; cases h)
                      (Or.inl (hinv.idle_prof p hpmem hph htermF))
                      (fun _ pe' hpe' hkey' => by
                        have h2 : pe'.2 = pe :=
                          hinv.pend_uniq pe' hpe' (ident, pe) hmemp hkey' rfl
                        rw [h2]
                        exact hne)
                      (Or.inr ⟨(ident, pe), hmemc, rfl⟩)
                    rw [hph] at hr
                    exact hr
                | none =>
                    rw [handle_user_ok env s.g p.conn ident p.sessNo t hexam (hsend _)
                      hcic hpc]
                    dsimp only
                    exact LoginInv.userOk ident nm cs s hinv i t p hp htermF hph hcic
        | awaitPass =>
            dsimp only
            obtain ⟨hrep331, hpendu⟩ := hinv.await_prof p hpmem hph htermF
            rw [hpendu]
            cases hcic : getK s.g.connected ident with
            | some e =>
                obtain ⟨q, hqmem, hq1, hq2, hq3, hq4⟩ := hinv.conn_inv e hcic
                have hqp : q ≠ p := by
                  intro h
                  rw [h, hph] at hq2
                  cases hq2
                have hne : e.conn ≠ p.conn := by
                  intro h
                  exact hqp (hinj q hqmem p hpmem (by rw [hq1, h]))
                have hal : connAlive s.g e.conn = true := by
                  have ha := hinv.alive q hqmem
                  rw [hq1] at ha
                  unfold connAlive
                  rw [ha]
                  rfl
                rw [handle_pass_reject_connected env s.g p.conn ident pw p.sessNo t e
                  (hsend _) hcic hne hal]
                dsimp only
                have hr := LoginInv.reject ident nm cs s hinv i t p ident hp htermF
                  (by rw [hph]; intro h; cases h)
                  (Or.inr hrep331)
                  (fun hnone => by rw [hcic] at hnone; cases hnone)
                  (Or.inl (by rw [hcic]; intro h; cases h))
                rw [hph, hpendu] at hr
                exact hr
            | none =>
                cases hpc : getK (cleanupStale s.g.pending t).1 ident with
                | some pe =>
                    by_cases hpconn : pe.1 = p.conn
                    · rw [handle_pass_commit env s.g p.conn ident pw p.sessNo nm t hexam
                        (hsend _) hverify hcic
                        (Or.inr ⟨pe.2, by rw [hpc]; rw [← hpconn]⟩)]
                      have hr := LoginInv.passOk ident nm cs s hinv i t p hp htermF hph hcic
                      rw [hpendu] at hr
                      exact hr
                    · have hmemc : (ident, pe) ∈ (cleanupStale s.g.pending t).1 :=
                        getK_mem hpc
                      have hmemp : (ident, pe) ∈ s.g.pending := mem_cleanupStale hmemc
                      rw [handle_pass_reject_pending env s.g p.conn ident pw p.sessNo t pe
                        (hsend _) hcic hpc hpconn]
                      dsimp only
                      have hr := LoginInv.reject ident nm cs s hinv i t p ident hp htermF
                        (by rw [hph]; intro h; cases h)
                        (Or.inr hrep331)
                        (fun _ pe' hpe' hkey' => by
                          have h2 : pe'.2 = pe :=
                            hinv.pend_uniq pe' hpe' (ident, pe) hmemp hkey' rfl
                          rw [h2]
                          exact hpconn)
                        (Or.inr ⟨(ident, pe), hmemc, rfl⟩)
                      rw [hph, hpendu] at hr
                      exact hr
                | none =>
                    rw [handle_pass_commit env s.g p.conn ident pw p.sessNo nm t hexam
                      (hsend _) hverify hcic (Or.inl hpc)]
                    dsimp only
                    have hr := LoginInv.passOk ident nm cs s hinv i t p hp htermF hph hcic
                    rw [hpendu] at hr
                    exact hr

/-- A committed Identity Registry entry is never changed by any further
step: each handler's already-connected check rejects the newcomer while
the stored handle is alive, and dead-handle eviction never fires because
the winner's handle stays alive. -/
theorem stepSys_connected_mono (env : LoginEnv) (ident pw nm : String) (cs : List Conn)
    (hexam : env.examStarted = false) (hsend : ∀ c, env.sendOk c = true)
    (hnodup : cs.Nodup)
    (s : SysState) (i t : Nat) (hinv : LoginInv ident nm cs s) (e : Entry)
    (he : getK s.g.connected ident = some e) :
    getK (stepSys env ident pw s i t).g.connected ident = some e := by
  unfold stepSys
  cases hp : s.parts.get? i with
  | none => exact he
  | some p =>
      dsimp only
      by_cases hterm : p.term = true ∨ p.phase = Phase.finished
      · rw [if_pos hterm]
        exact he
      · rw [if_neg hterm]
        push_neg at hterm
        obtain ⟨hterm1, hterm2⟩ := hterm
        have htermF : p.term = false := by
          cases hpt : p.term
          · rfl
          · exact absurd hpt hterm1
        have hpmem : p ∈ s.parts := List.get?_mem hp
        have hinj := parts_inj hinv.conns hnodup
        obtain ⟨q, hqmem, hq1, hq2, hq3, hq4⟩ := hinv.conn_inv e he
        have hqp : q ≠ p := by
          intro h
          rw [h] at hq2
          exact hterm2 hq2
        have hne : e.conn ≠ p.conn := by
          intro h
          exact hqp (hinj q hqmem p hpmem (by rw [hq1, h]))
        have hal : connAlive s.g e.conn = true := by
          have ha := hinv.alive q hqmem
          rw [hq1] at ha
          unfold connAlive
          rw [ha]
          rfl
        cases hph : p.phase with
        | finished => exact absurd hph hterm2
        | idle =>
            dsimp only
            rw [handle_user_reject_connected env s.g p.conn ident p.sessNo t e hexam
              (hsend _) he hne hal]
            exact he
        | awaitPass =>
            dsimp only
            obtain ⟨_, hpendu⟩ := hinv.await_prof p hpmem hph htermF
            rw [hpendu]
            rw [handle_pass_reject_connected env s.g p.conn ident pw p.sessNo t e
              (hsend _) he hne hal]
            exact he

/-- `runSys` over an appended schedule. -/
theorem runSys_append (env : LoginEnv) (ident pw : String) (s : SysState)
    (l1 l2 : List (Nat × Nat)) :
    runSys env ident pw s (l1 ++ l2) = runSys env ident pw (runSys env ident pw s l1) l2 := by
  unfold runSys
  exact List.foldl_append _ _ l1 l2

/-- The race invariant holds after any schedule. -/
theorem runSys_preserves (env : LoginEnv) (ident pw nm : String) (cs : List Conn)
    (hexam : env.examStarted = false) (hsend : ∀ c, env.sendOk c = true)
    (hverify : env.verify ident pw = (true, nm)) (hnodup : cs.Nodup)
    (steps : List (Nat × Nat)) :
    ∀ (s : SysState), LoginInv ident nm cs s →
      LoginInv ident nm cs (runSys env ident pw s steps) := by
  induction steps with
  | nil => intro s hinv; exact hinv
  | cons st rest ih =>
      intro s hinv
      exact ih _ (stepSys_preserves env ident pw nm cs hexam hsend hverify hnodup
        s st.1 st.2 hinv)

/-- A committed entry survives any further schedule unchanged. -/
theorem runSys_connected_mono (env : LoginEnv) (ident pw nm : String) (cs : List Conn)
    (hexam : env.examStarted = false) (hsend : ∀ c, env.sendOk c = true)
    (hverify : env.verify ident pw = (true, nm)) (hnodup : cs.Nodup)
    (steps : List (Nat × Nat)) :
    ∀ (s : SysState), LoginInv ident nm cs s → ∀ e,
      getK s.g.connected ident = some e →
      getK (runSys env ident pw s steps).g.connected ident = some e := by
  induction steps with
  | nil => intro s _ e he; exact he
  | cons st rest ih =>
      intro s hinv e he
      exact ih _ (stepSys_preserves env ident pw nm cs hexam hsend hverify hnodup
          s st.1 st.2 hinv) e
        (stepSys_connected_mono env ident pw nm cs hexam hsend hnodup s st.1 st.2 hinv e he)

/-- The invariant holds initially: clean registries, live handles, fresh
sessions. -/
theorem LoginInv_init (ident nm : String) (cs : List Conn) (g0 : GState)
    (hc0 : getK g0.connected ident = none)
    (hp0 : ∀ pe ∈ g0.pending, pe.1 ≠ ident)
    (hd0 : ∀ c ∈ cs, g0.dead.contains c = false) :
    LoginInv ident nm cs (initSys g0 cs) := by
  refine ⟨?_, ?_, ?_, ?_, ?_, ?_, ?_, ?_, ?_, ?_⟩
  · clear hd0
    simp only [initSys, List.map_map]
    induction cs with
    | nil => rfl
    | cons c rest ih =>
        simp only [List.map_cons]
        rw [ih]
        rfl
  · intro p hp
    simp only [initSys, List.mem_map] at hp
    obtain ⟨c, hc, rfl⟩ := hp
    exact hd0 c hc
  · intro p hp _ _
    simp only [initSys, List.mem_map] at hp
    obtain ⟨c, _, rfl⟩ := hp
    rfl
  · intro p hp h1 _
    simp only [initSys, List.mem_map] at hp
    obtain ⟨c, _, rfl⟩ := hp
    cases h1
  · intro p hp h1 _
    simp only [initSys, List.mem_map] at hp
    obtain ⟨c, _, rfl⟩ := hp
    cases h1
  · intro p hp h1
    simp only [initSys, List.mem_map] at hp
    obtain ⟨c, _, rfl⟩ := hp
    cases h1
  · intro e he
    rw [show getK (initSys g0 cs).g.connected ident = none from hc0] at he
    cases he
  · intro _ pe hpe hkey
    exact absurd hkey (hp0 pe hpe)
  · intro pe hpe qe _ h1 _
    exact absurd h1 (hp0 pe hpe)
  · intro h
    obtain ⟨p, hp, hcase⟩ := h
    simp only [initSys, List.mem_map] at hp
    obtain ⟨c, _, rfl⟩ := hp
    rcases hcase with h | h
    · exact absurd rfl h
    · cases h

/-- C1 (amended): for every identity, at most one live connection ever
holds that identity: when any number of live connections with
deliverable replies concurrently run USER then PASS with the same valid
(identity, secret) pair, exactly one connection receives 230 and is
committed to the registry while every other connection receives
550 ZATEN_BAGLI and is not committed; the committed entry is never
silently overwritten; and all registry and pending-login mutations
happen under the process-wide login lock, **except** the lazy purge of
timed-out pending-login entries, which both handlers perform before
acquiring the lock. -/
theorem snav_C1_login_guard
    (env : LoginEnv) (ident pw nm : String) (g0 : GState) (cs : List Conn)
    (steps : List (Nat × Nat))
    (hexam : env.examStarted = false)
    (hsend : ∀ c, env.sendOk c = true)
    (hverify : env.verify ident pw = (true, nm))
    (hnodup : cs.Nodup) (hcsne : cs ≠ [])
    (hc0 : getK g0.connected ident = none)
    (hp0 : ∀ pe ∈ g0.pending, pe.1 ≠ ident)
    (hd0 : ∀ c ∈ cs, g0.dead.contains c = false)
    (hcomplete : ∀ p ∈ (runSys env ident pw (initSys g0 cs) steps).parts,
      p.term = true ∨ p.phase = Phase.finished) :
    (∃ w ∈ (runSys env ident pw (initSys g0 cs) steps).parts,
      w.replies.count c230 = 1 ∧
      getK (runSys env ident pw (initSys g0 cs) steps).g.connected ident =
        some ⟨w.conn, nm⟩ ∧
      ∀ q ∈ (runSys env ident pw (initSys g0 cs) steps).parts, q.conn ≠ w.conn →
        q.replies.count c230 = 0 ∧ q.replies.count cZB = 1) ∧
    (∀ k e,
      getK (runSys env ident pw (initSys g0 cs) (steps.take k)).g.connected ident = some e →
      getK (runSys env ident pw (initSys g0 cs) steps).g.connected ident = some e) ∧
    (∀ env' g conn uarg sess now,
      ∀ m ∈ (handle_user env' g conn uarg sess now).muts,
        m.locked = true ∨ ∃ i, m.kind = Mut.stalePurge i) ∧
    (∀ env' g conn parg puser sess now,
      ∀ m ∈ (handle_pass env' g conn parg puser sess now).muts,
        m.locked = true ∨ ∃ i, m.kind = Mut.stalePurge i) := by
  have hinit := LoginInv_init ident nm cs g0 hc0 hp0 hd0
  have hinvF := runSys_preserves env ident pw nm cs hexam hsend hverify hnodup steps
    (initSys g0 cs) hinit
  refine ⟨?_, ?_, ?_, ?_⟩
  · cases hgetF : getK (runSys env ident pw (initSys g0 cs) steps).g.connected ident with
    | none =>
        exfalso
        have hne' : (runSys env ident pw (initSys g0 cs) steps).parts ≠ [] := by
          intro h
          apply hcsne
          have := hinvF.conns
          rw [h] at this
          exact this.symm
        obtain ⟨p0, hp0mem⟩ := List.exists_mem_of_ne_nil _ hne'
        have hacted : ∃ p ∈ (runSys env ident pw (initSys g0 cs) steps).parts,
            p.phase ≠ Phase.idle ∨ p.term = true := by
          refine ⟨p0, hp0mem, ?_⟩
          rcases hcomplete p0 hp0mem with h | h
          · exact Or.inr h
          · exact Or.inl (by rw [h]; intro hh; cases hh)
        rcases hinvF.progress hacted with h | ⟨pe, hpe, hkey⟩
        · exact h hgetF
        · obtain ⟨q, hqmem, _, hq2, hq3⟩ := hinvF.pend_inv hgetF pe hpe hkey
          rcases hcomplete q hqmem with h | h
          · rw [hq3] at h
            cases h
          · rw [hq2] at h
            cases h
    | some e =>
        obtain ⟨w, hwmem, hw1, hw2, hw3, hw4⟩ := hinvF.conn_inv e hgetF
        obtain ⟨hwc, hwrep⟩ := hinvF.fin_prof w hwmem hw2 hw3
        refine ⟨w, hwmem, ?_, hgetF.symm.trans hwc, ?_⟩
        · rw [hwrep]
          rfl
        · intro q hq hqconn
          by_cases hqterm : q.term = true
          · obtain ⟨h1, h2⟩ := hinvF.term_prof q hq hqterm
            exact ⟨h2, h1⟩
          · have hqtermF : q.term = false := by
              cases hq2 : q.term
              · rfl
              · exact absurd hq2 hqterm
            rcases hcomplete q hq with h | h
            · exact absurd h hqterm
            · obtain ⟨hqc, _⟩ := hinvF.fin_prof q hq h hqtermF
              rw [hwc] at hqc
              simp only [Option.some.injEq, Entry.mk.injEq] at hqc
              exact absurd hqc.1.symm hqconn
  · intro k e he
    rw [← List.take_append_drop k steps, runSys_append]
    exact runSys_connected_mono env ident pw nm cs hexam hsend hverify hnodup
      (steps.drop k) _
      (runSys_preserves env ident pw nm cs hexam hsend hverify hnodup (steps.take k)
        (initSys g0 cs) hinit)
      e he
  · intro env' g conn uarg sess now
    exact handle_user_muts env' g conn uarg sess now
  · intro env' g conn parg puser sess now
    exact handle_pass_muts env' g conn parg puser sess now

/-- C1, counterexample to the claim as stated: `handle_user` pops a
timed-out pending-login entry (student 999, 100 s old) *before*
acquiring `_login_lock`, so not every registry / pending-login mutation
happens under the lock. -/
theorem snav_C1_counterexample :
    ¬ (∀ m ∈ (handle_user ⟨false, 0, fun _ _ => (false, ""), fun _ => true⟩
        ⟨[], [("999", (7, 0))], []⟩ 1 (some "415576") "Bilinmiyor" 100).muts,
      m.locked = true) := by
  decide

/-- C1 witness: in the concrete two-connection race, the schedule is
complete and exactly one connection wins the identity. -/
theorem snav_C1_login_guard_witness :
    (∀ p ∈ raceRunW.parts, p.term = true ∨ p.phase = Phase.finished) ∧
    (∃ w ∈ raceRunW.parts,
      w.replies.count c230 = 1 ∧
      getK raceRunW.g.connected "415576" = some ⟨w.conn, "Ogrenci"⟩ ∧
      ∀ q ∈ raceRunW.parts, q.conn ≠ w.conn →
        q.replies.count c230 = 0 ∧ q.replies.count cZB = 1) :=
  ⟨by decide,
    (snav_C1_login_guard raceEnvW "415576" "123456" "Ogrenci" ⟨[], [], []⟩ [1, 2]
      [(0, 0), (1, 1), (0, 2), (1, 3)] rfl (fun _ => rfl) (by decide) (by decide)
      (by decide) rfl (by decide) (by decide) (by decide)).1⟩

/-! ### STOR behaviour lemmas -/
/-- After the data port is at hand, a transfer whose received byte count
misses the declared size replies `550 Transfer yarim kaldi` and never
calls the secure-storage collaborator. -/
theorem storTransfer_short (env : StorEnv) (sNo fname : String) (filesize : Int)
    (pasv : Option Nat) (pasvUsed : Bool) (port : Nat) (pre : List Ev)
    (peer : Conn) (rest : List Conn)
    (haccept : env.dataListener.inbound = peer :: rest)
    (hmismatch : ((receive_file_data env.dataBytes filesize env.bufferSize).2 : Int) ≠ filesize) :
    storTransfer env sNo fname filesize pasv pasvUsed port pre =
      ⟨pre ++ (if pasvUsed then [] else [Ev.reply (format_passive_response env.serverIP port)]) ++
        [Ev.reply ("150 Opening binary mode data connection for " ++ fname ++ ".\n"),
          Ev.acceptData peer, Ev.reply "READY\n", Ev.closeData, Ev.closeListener,
          Ev.reply "550 Transfer yarim kaldi\n"],
        .err, pasv⟩ := by
  unfold storTransfer wait_for_data_connection
  rw [haccept]
  simp [hmismatch]

/-- After the data port is at hand, a transfer that receives exactly the
declared byte count saves the received data, replies `226` and records
the delivery marker. -/
theorem storTransfer_success (env : StorEnv) (sNo fname : String) (filesize : Int)
    (pasv : Option Nat) (pasvUsed : Bool) (port : Nat) (pre : List Ev)
    (peer : Conn) (rest : List Conn)
    (haccept : env.dataListener.inbound = peer :: rest)
    (hmatch : ((receive_file_data env.dataBytes filesize env.bufferSize).2 : Int) = filesize)
    (hsave : env.saveOk = true) (hreg : env.inRegistry = true) :
    storTransfer env sNo fname filesize pasv pasvUsed port pre =
      ⟨pre ++ (if pasvUsed then [] else [Ev.reply (format_passive_response env.serverIP port)]) ++
        [Ev.reply ("150 Opening binary mode data connection for " ++ fname ++ ".\n"),
          Ev.acceptData peer, Ev.reply "READY\n", Ev.closeData, Ev.closeListener,
          Ev.save (receive_file_data env.dataBytes filesize env.bufferSize).1 sNo fname,
          Ev.reply "226 Transfer complete.\n", Ev.record fname env.nowTime],
        .ok, none⟩ := by
  unfold storTransfer wait_for_data_connection
  rw [haccept]
  simp [hmatch, hsave, hreg]

/-- `handle_stor` on a well-formed `STOR <fname> <size>` from an
authenticated session in a running exam, size inside the ceiling, with
a PASV socket already open: it reuses that port (no fresh bind) and
runs the transfer. -/
theorem handle_stor_dispatch_pasv (env : StorEnv) (sNo : String) (p : Nat)
    (fname szStr : String) (filesize : Int)
    (hauth : sNo ≠ "Bilinmiyor") (hexam : env.examStarted = true)
    (hparse : pyInt szStr = some filesize)
    (hceil : ¬ (filesize > 0 ∧ filesize > env.maxFileSize)) :
    handle_stor env sNo (some p) ["STOR", fname, szStr] =
      storTransfer env sNo fname filesize (some p) true p [] := by
  unfold handle_stor
  rw [if_neg hauth]
  rw [if_neg (by rw [hexam]; intro h; cases h)]
  have hlen : ¬ (([("STOR" : String), fname, szStr]).length < 2) := by simp
  rw [if_neg hlen]
  simp [hparse, hceil]

/-- As `handle_stor_dispatch_pasv`, but with no PASV socket: a fresh
data port is bound and announced. -/
theorem handle_stor_dispatch_bind (env : StorEnv) (sNo : String) (p : Nat)
    (fname szStr : String) (filesize : Int)
    (hauth : sNo ≠ "Bilinmiyor") (hexam : env.examStarted = true)
    (hparse : pyInt szStr = some filesize)
    (hceil : ¬ (filesize > 0 ∧ filesize > env.maxFileSize))
    (hbind : env.bindResult = some p) :
    handle_stor env sNo none ["STOR", fname, szStr] =
      storTransfer env sNo fname filesize none false p [Ev.allocPort p] := by
  unfold handle_stor
  rw [if_neg hauth]
  rw [if_neg (by rw [hexam]; intro h; cases h)]
  have hlen : ¬ (([("STOR" : String), fname, szStr]).length < 2) := by simp
  rw [if_neg hlen]
  simp [hparse, hceil, hbind]

/-- C6 (confirmed): a STOR whose declared size exceeds the configured
ceiling is refused with `550` before any data-channel step: the reply is
the only emitted action — no listening port is allocated and no 227/150
line is sent for the command. -/
theorem snav_C6_stor_oversize (env : StorEnv) (sNo : String) (pasv : Option Nat)
    (fname szStr : String) (filesize : Int)
    (hauth : sNo ≠ "Bilinmiyor") (hexam : env.examStarted = true)
    (hparse : pyInt szStr = some filesize)
    (hsz : filesize > env.maxFileSize) :
    handle_stor env sNo pasv ["STOR", fname, szStr] =
      ⟨[Ev.reply ("550 File too large (max " ++ toString env.maxFileSizeMB ++ "MB).\n")],
        .ok, pasv⟩ ∧
    (∀ p, Ev.allocPort p ∉ (handle_stor env sNo pasv ["STOR", fname, szStr]).events) ∧
    (∀ m, Ev.reply m ∈ (handle_stor env sNo pasv ["STOR", fname, szStr]).events →
      m = "550 File too large (max " ++ toString env.maxFileSizeMB ++ "MB).\n") := by
  have hpos : filesize > 0 := by
    have : (0 : Int) ≤ env.maxFileSize := by
      unfold StorEnv.maxFileSize
      positivity
    omega
  have heq : handle_stor env sNo pasv ["STOR", fname, szStr] =
      ⟨[Ev.reply ("550 File too large (max " ++ toString env.maxFileSizeMB ++ "MB).\n")],
        .ok, pasv⟩ := by
    unfold handle_stor
    rw [if_neg hauth]
    rw [if_neg (by rw [hexam]; intro h; cases h)]
    have hlen : ¬ (([("STOR" : String), fname, szStr]).length < 2) := by simp
    rw [if_neg hlen]
    simp [hparse, hpos, hsz]
  refine ⟨heq, ?_, ?_⟩
  · intro p
    rw [heq]
    simp
  · intro m hm
    rw [heq] at hm
    simp at hm
    exact hm

/-- C6 witness: a 51 MiB upload against the default 50 MiB ceiling. -/
theorem snav_C6_stor_oversize_witness :
    (pyInt "53477376" = some 53477376 ∧
      (53477376 : Int) > (⟨true, 50, 4096, some 50000, "10.0.0.1", ⟨false, [9]⟩, [],
        true, "10:00:00", true⟩ : StorEnv).maxFileSize) ∧
    handle_stor ⟨true, 50, 4096, some 50000, "10.0.0.1", ⟨false, [9]⟩, [], true,
        "10:00:00", true⟩ "415576" none ["STOR", "ans.txt", "53477376"] =
      ⟨[Ev.reply "550 File too large (max 50MB).\n"], .ok, none⟩ :=
  ⟨⟨by decide, by decide⟩,
    ((snav_C6_stor_oversize ⟨true, 50, 4096, some 50000, "10.0.0.1", ⟨false, [9]⟩, [],
        true, "10:00:00", true⟩ "415576" none "ans.txt" "53477376" 53477376
      (by decide) rfl (by decide) (by decide)).1)⟩

/-- C4 (confirmed): a STOR transfer whose data channel delivers fewer
bytes than declared before closing is answered `550 Transfer yarim
kaldi` on the control channel, and the secure-storage save is never
invoked — no submission is persisted from the partial data. -/
theorem snav_C4_stor_partial (env : StorEnv) (sNo : String) (pasv : Option Nat)
    (fname szStr : String) (filesize : Int) (pp : Nat) (peer : Conn) (rest : List Conn)
    (hauth : sNo ≠ "Bilinmiyor") (hexam : env.examStarted = true)
    (hparse : pyInt szStr = some filesize)
    (hceil : ¬ (filesize > env.maxFileSize))
    (hport : pasv = some pp ∨ (pasv = none ∧ env.bindResult = some pp))
    (haccept : env.dataListener.inbound = peer :: rest)
    (hshort : (env.dataBytes.length : Int) < filesize) :
    Ev.reply "550 Transfer yarim kaldi\n" ∈
      (handle_stor env sNo pasv ["STOR", fname, szStr]).events ∧
    (∀ e ∈ (handle_stor env sNo pasv ["STOR", fname, szStr]).events, e.isSave = false) ∧
    (handle_stor env sNo pasv ["STOR", fname, szStr]).outcome = .err := by
  have hpos : 0 < filesize := by
    have : (0 : Int) ≤ env.dataBytes.length := by positivity
    omega
  have hmismatch :
      ((receive_file_data env.dataBytes filesize env.bufferSize).2 : Int) ≠ filesize := by
    rw [receive_file_data_eq]
    have h1 : min filesize.toNat env.dataBytes.length = env.dataBytes.length := by
      have : env.dataBytes.length ≤ filesize.toNat := by omega
      omega
    simp only [h1]
    omega
  rcases hport with hport | ⟨hport, hbind⟩ <;> subst hport
  · rw [handle_stor_dispatch_pasv env sNo pp fname szStr filesize hauth hexam hparse
      (by intro h; exact hceil h.2)]
    rw [storTransfer_short env sNo fname filesize _ true pp [] peer rest haccept hmismatch]
    refine ⟨by simp, ?_, rfl⟩
    intro e he
    fin_cases he <;> rfl
  · rw [handle_stor_dispatch_bind env sNo pp fname szStr filesize hauth hexam hparse
      (by intro h; exact hceil h.2) hbind]
    rw [storTransfer_short env sNo fname filesize none false pp [Ev.allocPort pp]
      peer rest haccept hmismatch]
    refine ⟨by simp, ?_, rfl⟩
    intro e he
    fin_cases he <;> rfl

/-- C4 witness: `STOR ans.txt 1024` with only 512 bytes delivered. -/
theorem snav_C4_stor_partial_witness :
    ((List.replicate 512 (65 : Byte)).length : Int) < 1024 ∧
    (Ev.reply "550 Transfer yarim kaldi\n" ∈
      (handle_stor ⟨true, 50, 4096, some 50000, "10.0.0.1", ⟨false, [9]⟩,
          List.replicate 512 65, true, "10:00:00", true⟩
        "415576" none ["STOR", "ans.txt", "1024"]).events ∧
    (∀ e ∈ (handle_stor ⟨true, 50, 4096, some 50000, "10.0.0.1", ⟨false, [9]⟩,
          List.replicate 512 65, true, "10:00:00", true⟩
        "415576" none ["STOR", "ans.txt", "1024"]).events, e.isSave = false) ∧
    (handle_stor ⟨true, 50, 4096, some 50000, "10.0.0.1", ⟨false, [9]⟩,
          List.replicate 512 65, true, "10:00:00", true⟩
        "415576" none ["STOR", "ans.txt", "1024"]).outcome = .err) :=
  ⟨by rw [List.length_replicate]; decide,
    snav_C4_stor_partial ⟨true, 50, 4096, some 50000, "10.0.0.1", ⟨false, [9]⟩,
        List.replicate 512 65, true, "10:00:00", true⟩
      "415576" none "ans.txt" "1024" 1024 50000 9 []
      (by decide) rfl (by decide) (by decide) (Or.inr ⟨rfl, rfl⟩) rfl
      (by rw [List.length_replicate]; decide)⟩

/-- C3, counterexample to the claim as stated: in a successful STOR the
delivery marker is recorded only *after* the `226` reply is sent — the
recording never precedes the `226` although both occur. -/
theorem snav_C3_counterexample :
    beforeIn (handle_stor storEnvW "415576" none ["STOR", "ans.txt", "4"]).events
        Ev.isRecord Ev.isReply226 = false ∧
    beforeIn (handle_stor storEnvW "415576" none ["STOR", "ans.txt", "4"]).events
        Ev.isReply226 Ev.isRecord = true ∧
    Ev.record "ans.txt" "10:00:00" ∈
      (handle_stor storEnvW "415576" none ["STOR", "ans.txt", "4"]).events ∧
    Ev.reply "226 Transfer complete.\n" ∈
      (handle_stor storEnvW "415576" none ["STOR", "ans.txt", "4"]).events := by
  have hdisp := handle_stor_dispatch_bind storEnvW "415576" 50000 "ans.txt" "4" 4
    (by decide) rfl (by decide) (by decide) rfl
  have hsucc := storTransfer_success storEnvW "415576" "ans.txt" 4 none false 50000
    [Ev.allocPort 50000] 9 [] rfl (by rw [receive_file_data_eq]; decide) rfl rfl
  have hp : (receive_file_data storEnvW.dataBytes 4 storEnvW.bufferSize).1 =
      [1, 2, 3, 4] := by
    rw [receive_file_data_eq]
    decide
  rw [hdisp, hsucc]
  simp only [hp]
  decide

/-- C3 (amended): for every STOR from an authenticated session during a
running exam with a valid declared size within the ceiling and the data
fully delivered: after the data connection is accepted the server emits
`READY` on the control channel, receives exactly the declared bytes,
persists them via the secure-storage collaborator, replies `226`, and
*then* records the filename and delivery time for the session — it does
not abort the transfer after sending `READY`. -/
theorem snav_C3_stor_success (env : StorEnv) (sNo : String) (pasv : Option Nat)
    (fname szStr : String) (filesize : Int) (pp : Nat) (peer : Conn) (rest : List Conn)
    (hauth : sNo ≠ "Bilinmiyor") (hexam : env.examStarted = true)
    (hparse : pyInt szStr = some filesize)
    (hpos : 0 < filesize) (hceil : ¬ (filesize > env.maxFileSize))
    (hport : pasv = some pp ∨ (pasv = none ∧ env.bindResult = some pp))
    (haccept : env.dataListener.inbound = peer :: rest)
    (hdata : filesize.toNat ≤ env.dataBytes.length)
    (hsave : env.saveOk = true) (hreg : env.inRegistry = true) :
    ∃ pre, (handle_stor env sNo pasv ["STOR", fname, szStr]).events =
      pre ++ [Ev.acceptData peer, Ev.reply "READY\n", Ev.closeData, Ev.closeListener,
        Ev.save (env.dataBytes.take filesize.toNat) sNo fname,
        Ev.reply "226 Transfer complete.\n", Ev.record fname env.nowTime] ∧
    (handle_stor env sNo pasv ["STOR", fname, szStr]).outcome = .ok ∧
    (handle_stor env sNo pasv ["STOR", fname, szStr]).pasv = none := by
  have hrcv := receive_file_data_eq env.dataBytes filesize env.bufferSize
  have hmatch : ((receive_file_data env.dataBytes filesize env.bufferSize).2 : Int)
      = filesize := by
    rw [hrcv]
    have hmin : min filesize.toNat env.dataBytes.length = filesize.toNat := by omega
    simp only [hmin]
    exact Int.toNat_of_nonneg (by omega)
  have hpayload : (receive_file_data env.dataBytes filesize env.bufferSize).1 =
      env.dataBytes.take filesize.toNat := by rw [hrcv]
  have hceil2 : ¬ (filesize > 0 ∧ filesize > env.maxFileSize) := by
    intro h
    exact hceil h.2
  rcases hport with hport | ⟨hport, hbind⟩ <;> subst hport
  · rw [handle_stor_dispatch_pasv env sNo pp fname szStr filesize hauth hexam hparse hceil2]
    rw [storTransfer_success env sNo fname filesize _ true pp [] peer rest haccept
      hmatch hsave hreg]
    refine ⟨[Ev.reply ("150 Opening binary mode data connection for " ++ fname ++ ".\n")],
      ?_, rfl, rfl⟩
    simp [hpayload]
  · rw [handle_stor_dispatch_bind env sNo pp fname szStr filesize hauth hexam hparse
      hceil2 hbind]
    rw [storTransfer_success env sNo fname filesize none false pp [Ev.allocPort pp]
      peer rest haccept hmatch hsave hreg]
    refine ⟨[Ev.allocPort pp, Ev.reply (format_passive_response env.serverIP pp),
      Ev.reply ("150 Opening binary mode data connection for " ++ fname ++ ".\n")],
      ?_, rfl, rfl⟩
    simp [hpayload]

/-- C3 witness: a 4-byte submission delivered in full. -/
theorem snav_C3_stor_success_witness :
    ((0 : Int) < 4 ∧ (4 : Int).toNat ≤ storEnvW.dataBytes.length) ∧
    (∃ pre, (handle_stor storEnvW "415576" none ["STOR", "ans.txt", "4"]).events =
      pre ++ [Ev.acceptData 9, Ev.reply "READY\n", Ev.closeData, Ev.closeListener,
        Ev.save (storEnvW.dataBytes.take (4 : Int).toNat) "415576" "ans.txt",
        Ev.reply "226 Transfer complete.\n", Ev.record "ans.txt" storEnvW.nowTime] ∧
    (handle_stor storEnvW "415576" none ["STOR", "ans.txt", "4"]).outcome = .ok ∧
    (handle_stor storEnvW "415576" none ["STOR", "ans.txt", "4"]).pasv = none) :=
  ⟨⟨by decide, by decide⟩,
    snav_C3_stor_success storEnvW "415576" none "ans.txt" "4" 4 50000 9 []
      (by decide) rfl (by decide) (by decide) (by decide) (Or.inr ⟨rfl, rfl⟩) rfl
      (by decide) rfl rfl⟩

/-- C10 (confirmed): a STOR during a running exam whose size argument is
absent or `0` is accepted: the ceiling check is skipped, the data
channel is opened, `READY` is emitted, zero bytes are read (0 = declared
size 0), the empty payload is persisted via the secure-storage
collaborator as a complete submission, and the server replies `226`. -/
theorem snav_C10_stor_zero (env : StorEnv) (sNo : String) (pasv : Option Nat)
    (fname : String) (parts : List String) (pp : Nat) (peer : Conn) (rest : List Conn)
    (hauth : sNo ≠ "Bilinmiyor") (hexam : env.examStarted = true)
    (hargs : parts = ["STOR", fname] ∨ parts = ["STOR", fname, "0"])
    (hport : pasv = some pp ∨ (pasv = none ∧ env.bindResult = some pp))
    (haccept : env.dataListener.inbound = peer :: rest)
    (hsave : env.saveOk = true) (hreg : env.inRegistry = true) :
    ∃ pre, (handle_stor env sNo pasv parts).events =
      pre ++ [Ev.acceptData peer, Ev.reply "READY\n", Ev.closeData, Ev.closeListener,
        Ev.save [] sNo fname, Ev.reply "226 Transfer complete.\n",
        Ev.record fname env.nowTime] ∧
    (handle_stor env sNo pasv parts).outcome = .ok := by
  have hmatch : ((receive_file_data env.dataBytes 0 env.bufferSize).2 : Int) = 0 := by
    rw [receive_file_data_eq]
    simp
  have hpayload : (receive_file_data env.dataBytes 0 env.bufferSize).1 = [] := by
    rw [receive_file_data_eq]
    simp
  rcases hport with hport | ⟨hport, hbind⟩ <;> subst hport
  · have hdispatch : handle_stor env sNo (some pp) parts =
        storTransfer env sNo fname 0 (some pp) true pp [] := by
      rcases hargs with rfl | rfl
      · unfold handle_stor
        rw [if_neg hauth]
        rw [if_neg (by rw [hexam]; intro h; cases h)]
        simp
      · unfold handle_stor
        rw [if_neg hauth]
        rw [if_neg (by rw [hexam]; intro h; cases h)]
        have h0 : pyInt "0" = some 0 := by decide
        simp [h0]
    rw [hdispatch]
    rw [storTransfer_success env sNo fname 0 _ true pp [] peer rest haccept
      hmatch hsave hreg]
    refine ⟨[Ev.reply ("150 Opening binary mode data connection for " ++ fname ++ ".\n")],
      ?_, rfl⟩
    simp [hpayload]
  · have hdispatch : handle_stor env sNo none parts =
        storTransfer env sNo fname 0 none false pp [Ev.allocPort pp] := by
      rcases hargs with rfl | rfl
      · unfold handle_stor
        rw [if_neg hauth]
        rw [if_neg (by rw [hexam]; intro h; cases h)]
        simp [hbind]
      · unfold handle_stor
        rw [if_neg hauth]
        rw [if_neg (by rw [hexam]; intro h; cases h)]
        have h0 : pyInt "0" = some 0 := by decide
        simp [h0, hbind]
    rw [hdispatch]
    rw [storTransfer_success env sNo fname 0 none false pp [Ev.allocPort pp]
      peer rest haccept hmatch hsave hreg]
    refine ⟨[Ev.allocPort pp, Ev.reply (format_passive_response env.serverIP pp),
      Ev.reply ("150 Opening binary mode data connection for " ++ fname ++ ".\n")],
      ?_, rfl⟩
    simp [hpayload]

/-- C10 witness: `STOR ans.txt 0` persists an empty submission with a
`226` reply even though the client sent bytes the server never reads. -/
theorem snav_C10_stor_zero_witness :
    (storEnvW.dataListener.inbound = 9 :: [] ∧ storEnvW.saveOk = true) ∧
    (∃ pre, (handle_stor storEnvW "415576" none ["STOR", "ans.txt", "0"]).events =
      pre ++ [Ev.acceptData 9, Ev.reply "READY\n", Ev.closeData, Ev.closeListener,
        Ev.save [] "415576" "ans.txt", Ev.reply "226 Transfer complete.\n",
        Ev.record "ans.txt" storEnvW.nowTime] ∧
    (handle_stor storEnvW "415576" none ["STOR", "ans.txt", "0"]).outcome = .ok) :=
  ⟨⟨rfl, rfl⟩,
    snav_C10_stor_zero storEnvW "415576" none "ans.txt" ["STOR", "ans.txt", "0"] 50000 9 []
      (by decide) rfl (Or.inr rfl) (Or.inr ⟨rfl, rfl⟩) rfl rfl rfl⟩

/-- C7, counterexample to the claim as stated: with `expectedSize = 0`
the transfer engine does *not* read until the peer closes — the
`while received < expected_size` guard is false at once, so it returns
`([], 0)` even though the peer has bytes queued. -/
theorem snav_C7_counterexample :
    receive_file_data [97, 98] 0 4096 ≠ receiveSpecZeroUntilClose [97, 98] ∧
    receive_file_data [97, 98] 0 4096 = ([], 0) := by
  constructor
  · rw [receive_file_data_eq]
    decide
  · rw [receive_file_data_eq]
    decide

/-- C7 (amended): `receive_file_data` with `expectedSize = 0` returns
immediately with no bytes; for any `expectedSize` it reads until that
many bytes are collected or the peer closes early, and returns the bytes
together with the actual count received (no exception on early close). -/
theorem snav_C7_receive_semantics (s : List Byte) (n : Int) (b : Nat) :
    receive_file_data s 0 b = ([], 0) ∧
    receive_file_data s n b = (s.take n.toNat, min n.toNat s.length) := by
  constructor
  · rw [receive_file_data_eq]
    simp
  · exact receive_file_data_eq s n b

/-- C8, counterexample to the claim as stated: after the one `accept()`
the listening handle is *not* closed — `wait_for_data_connection`
returns it with `closed` still `false`, so a second peer could still be
accepted on the same port by a later call. -/
theorem snav_C8_counterexample :
    wait_for_data_connection ⟨false, [5, 7]⟩ = some (5, ⟨false, [7]⟩) ∧
    (⟨false, [7]⟩ : Listener).closed = false ∧
    wait_for_data_connection ⟨false, [7]⟩ = some (7, ⟨false, []⟩) := by
  decide

/-- C8 (amended): `wait_for_data_connection` on a listener with a queued
peer accepts exactly that first peer and returns, leaving the listening
handle's closed/open state exactly as it was — the function itself never
closes the listening socket; the caller does so later. -/
theorem snav_C8_wait_accept (l : Listener) (c : Conn) (rest : List Conn)
    (h : l.inbound = c :: rest) :
    wait_for_data_connection l = some (c, { l with inbound := rest }) ∧
    ({ l with inbound := rest } : Listener).closed = l.closed := by
  unfold wait_for_data_connection
  rw [h]
  exact ⟨rfl, rfl⟩

/-- C8 witness: an open listener with one queued peer stays open. -/
theorem snav_C8_wait_accept_witness :
    (⟨false, [5]⟩ : Listener).inbound = 5 :: [] ∧
    (wait_for_data_connection ⟨false, [5]⟩ = some (5, ⟨false, []⟩) ∧
      (⟨false, []⟩ : Listener).closed = (⟨false, [5]⟩ : Listener).closed) :=
  ⟨rfl, snav_C8_wait_accept ⟨false, [5]⟩ 5 [] rfl⟩

/-- C2, counterexample to the claim as stated: the `finally` cleanup of
`handle_client` deletes the registry entry without comparing handles.
Here the entry stores handle `2` (a newer session) while the
disconnecting session's handle is `1`, yet the entry is evicted. -/
theorem snav_C2_counterexample :
    (2 : Conn) ≠ (1 : Conn) ∧
    getK [("415576", (2 : Conn))] "415576" = some 2 ∧
    handle_client_cleanup [("415576", (2 : Conn))] "415576" 1 = [] := by
  decide

/-- C2 (amended): whenever the disconnecting session had committed an
identity that is still present in `connected_students`, the cleanup
removes that identity's entry unconditionally — the handle stored in the
entry is never consulted, so the entry vanishes even if it belongs to a
newer session with a different handle. -/
theorem snav_C2_cleanup_unconditional (connected : List (String × Conn))
    (sNo : String) (conn c : Conn)
    (hs : sNo ≠ "Bilinmiyor") (hc : getK connected sNo = some c) :
    handle_client_cleanup connected sNo conn = eraseK connected sNo ∧
    getK (handle_client_cleanup connected sNo conn) sNo = none := by
  have hres : handle_client_cleanup connected sNo conn = eraseK connected sNo := by
    unfold handle_client_cleanup
    rw [if_pos ⟨hs, by rw [hc]; rfl⟩]
  refine ⟨hres, ?_⟩
  rw [hres]
  exact getK_eraseK_self connected sNo

/-- C2 witness: a stale cleanup (handle `1`) evicts the newer session's
entry (stored handle `2`). -/
theorem snav_C2_cleanup_unconditional_witness :
    (("415576" : String) ≠ "Bilinmiyor" ∧
      getK [("415576", (2 : Conn))] "415576" = some 2) ∧
    (handle_client_cleanup [("415576", (2 : Conn))] "415576" 1 =
        eraseK [("415576", (2 : Conn))] "415576" ∧
      getK (handle_client_cleanup [("415576", (2 : Conn))] "415576" 1) "415576" = none) :=
  ⟨⟨by decide, rfl⟩,
    snav_C2_cleanup_unconditional [("415576", 2)] "415576" 1 2 (by decide) rfl⟩

/-- C5, counterexample to the claim as stated: at zero the timer tick
broadcasts `CMD:TIME_UP` and stops the timer, but `exam_started` is left
`true`, so a subsequent LOGIN is still refused with
`550 SINAV_BASLADI_GIRIS_YASAK` — the exam state is not flipped back to
not-started. -/
theorem snav_C5_counterexample :
    (update_server_timer srvStW [2]).1.timerRunning = false ∧
    (update_server_timer srvStW [2]).2 = [(2, "CMD:TIME_UP\n")] ∧
    (update_server_timer srvStW [2]).1.examStarted = true ∧
    (handle_client_iteration srvEnvW (update_server_timer srvStW [2]).1
        "LOGIN 415576 sifre").2 = (["550 SINAV_BASLADI_GIRIS_YASAK\n"], true) := by
  decide

/-- C5 (amended): when the countdown reaches zero with the timer
running, the tick broadcasts `CMD:TIME_UP` to every connected session
and clears only `timer_running`; `exam_started` keeps its value, so with
the exam started a later LOGIN on any session is still refused with
`550 SINAV_BASLADI_GIRIS_YASAK` until `unlock_entries` is invoked —
which does reset `exam_started` to false. -/
theorem snav_C5_time_up (st : SrvState) (conns : List Conn) (env : SrvEnv)
    (raw : String)
    (hrun : st.timerRunning = true) (hz : st.remaining ≤ 0)
    (hex : st.examStarted = true)
    (hne : pyStrip raw ≠ "")
    (hcmd : pyUpper ((pySplit (pyStrip raw)).headD "") = "LOGIN") :
    update_server_timer st conns =
      ({ st with timerRunning := false }, conns.map (fun c => (c, "CMD:TIME_UP\n"))) ∧
    (update_server_timer st conns).1.examStarted = true ∧
    (handle_client_iteration env (update_server_timer st conns).1 raw).2 =
      (["550 SINAV_BASLADI_GIRIS_YASAK\n"], true) ∧
    (unlock_entries (update_server_timer st conns).1).examStarted = false := by
  have h1 : update_server_timer st conns =
      ({ st with timerRunning := false }, conns.map (fun c => (c, "CMD:TIME_UP\n"))) := by
    unfold update_server_timer
    rw [if_neg (by intro h; omega), if_pos ⟨hrun, hz⟩]
  have hex1 : (update_server_timer st conns).1.examStarted = true := by
    rw [h1]
    exact hex
  refine ⟨h1, hex1, ?_, by rw [h1]; rfl⟩
  unfold handle_client_iteration
  dsimp only
  rw [if_neg hne, if_pos hcmd, if_pos hex1]

/-- C5 witness: the expiring tick on a concrete running exam. -/
theorem snav_C5_time_up_witness :
    (srvStW.timerRunning = true ∧ srvStW.remaining ≤ 0 ∧ srvStW.examStarted = true ∧
      (pyStrip "LOGIN 415576 sifre" ≠ "" ∧
        pyUpper ((pySplit (pyStrip "LOGIN 415576 sifre")).headD "") = "LOGIN")) ∧
    (update_server_timer srvStW [2] =
        ({ srvStW with timerRunning := false }, [(2, "CMD:TIME_UP\n")]) ∧
      (update_server_timer srvStW [2]).1.examStarted = true ∧
      (handle_client_iteration srvEnvW (update_server_timer srvStW [2]).1
          "LOGIN 415576 sifre").2 = (["550 SINAV_BASLADI_GIRIS_YASAK\n"], true) ∧
      (unlock_entries (update_server_timer srvStW [2]).1).examStarted = false) :=
  ⟨⟨rfl, by decide, rfl, by decide, by decide⟩,
    snav_C5_time_up srvStW [2] srvEnvW "LOGIN 415576 sifre" rfl (by decide) rfl
      (by decide) (by decide)⟩

/-- C9, counterexample to the claim as stated: a buffer holding two
newline-separated `PING` lines is treated as ONE command — `data.split(" ")`
never splits on the newline, the head token `PING\nPING` is unknown, and
the whole buffer is answered with a single `500`; no `PONG` is produced
for either line. -/
theorem snav_C9_counterexample :
    (handle_client_iteration srvEnvW srvStW "PING\nPING").2 =
      (["500 Bilinmeyen komut\n"], false) ∧
    "PONG\n" ∉ (handle_client_iteration srvEnvW srvStW "PING\nPING").2.1 := by
  decide

/-- C9 (amended): the command loop treats the whole received buffer as a
single command line — it splits on spaces only, never on newlines.  Any
buffer whose first space-separated token (which may itself contain
newlines) is not a known command yields exactly one `500` reply for the
entire buffer, with the state unchanged and the loop continuing; the
remaining "lines" of the buffer are never parsed as commands. -/
theorem snav_C9_no_line_split (env : SrvEnv) (st : SrvState) (raw : String)
    (hne : pyStrip raw ≠ "")
    (hcmd : pyUpper ((pySplit (pyStrip raw)).headD "") ∉
      (["LOGIN", "LIST", "STOR", "PING"] : List String)) :
    handle_client_iteration env st raw = (st, ["500 Bilinmeyen komut\n"], false) := by
  simp only [List.mem_cons, List.not_mem_nil, or_false, not_or] at hcmd
  obtain ⟨h1, h2, h3, h4⟩ := hcmd
  unfold handle_client_iteration
  dsimp only
  rw [if_neg hne, if_neg h1, if_neg h2, if_neg h3, if_neg h4]

/-- C9 witness: the two packed `PING` lines from the counterexample,
derived from the general statement. -/
theorem snav_C9_no_line_split_witness :
    ((pyStrip "PING\nPING" ≠ "") ∧
      pyUpper ((pySplit (pyStrip "PING\nPING")).headD "") ∉
        (["LOGIN", "LIST", "STOR", "PING"] : List String)) ∧
    handle_client_iteration srvEnvW srvStW "PING\nPING" =
      (srvStW, ["500 Bilinmeyen komut\n"], false) :=
  ⟨⟨by decide, by decide⟩,
    snav_C9_no_line_split srvEnvW srvStW "PING\nPING" (by decide) (by decide)⟩

end SNav

